import Mathlib

set_option synthInstance.maxSize 512

/-!
Shallow embedding of the optimize-route pipeline of
src/app/api/optimize-route/route.ts, together with theorems that settle
the frozen claims about it.

Modelling conventions:
* Coordinates are rational pairs; every JavaScript number that takes part
  in control flow is modelled as a rational.
* Outbound network calls are modelled by an environment record that maps
  the arguments of each call to its observed outcome (a thrown error, an
  HTTP response with a success flag and a parsed JSON payload).  A thrown
  JavaScript exception is an explicit JsError value.
* The transcendental haversine distance used for candidate ranking is a
  parameter hav of the pipeline functions: every pipeline theorem is
  proved for an arbitrary distance function, hence in particular for the
  actual haversine.  The haversine formula itself is embedded over the
  real numbers separately for the algebraic claim about it.
* JSON values that the code immediately classifies (typeof x === "number"
  plus isFinite guards) are modelled at the granularity the code can
  observe: a matrix entry is Option Rat, none standing for a missing,
  non-numeric or non-finite entry, since all of those flow identically.
-/

namespace BirthdayScout

/-- A coordinate, lat and lon in degrees, as in type Geo of route.ts. -/
structure Geo where
  lat : ℚ
  lon : ℚ
deriving DecidableEq, Repr

/-- A thrown JavaScript error: either an AbortError raised by the timeout
controller, or an ordinary Error carrying a message string. -/
inductive JsError where
  | abort
  | err (msg : String)
deriving DecidableEq, Repr

/-- The note string the catch-all handler of POST derives from a thrown
error: AbortError maps to the timeout message, otherwise e.message with
the "Server error" fallback for an empty message. -/
def errNote : JsError → String
  | .abort => "Request timed out. Try again."
  | .err m => if m = "" then "Server error" else m

/-- List-level check that pat starts the given character list. -/
def headMatches : List Char → List Char → Bool
  | [], _ => true
  | _ :: _, [] => false
  | p :: ps, h :: hs => p == h && headMatches ps hs

/-- List-level substring containment: pat occurs somewhere in the
haystack; the empty pattern is always contained. -/
def containsList (pat : List Char) : List Char → Bool
  | [] => pat.isEmpty
  | h :: t => headMatches pat (h :: t) || containsList pat t

/-- JavaScript String.prototype.includes. -/
def strIncludes (s pat : String) : Bool :=
  containsList pat.data s.data

/-- ASCII lower-casing of one character, the fragment of
String.prototype.toLowerCase the brand registry exercises. -/
def lowerChar (c : Char) : Char :=
  if 'A' ≤ c ∧ c ≤ 'Z' then Char.ofNat (c.toNat + 32) else c

/-- String.prototype.toLowerCase, ASCII fragment. -/
def jsToLower (s : String) : String := { data := s.data.map lowerChar }

/-- One whitespace character of String.prototype.trim. -/
def wsChar (c : Char) : Bool := c == ' ' || c == '\t' || c == '\n' || c == '\r'

/-- String.prototype.trim: strip whitespace from both ends. -/
def jsTrim (s : String) : String :=
  { data := ((s.data.dropWhile wsChar).reverse.dropWhile wsChar).reverse }

/-- detectChain of route.ts: case-insensitive keyword match against the
fixed brand registry. -/
def detectChain (query : String) : Option String :=
  let q := jsToLower query
  if strIncludes q "starbucks" then some "Starbucks"
  else if strIncludes q "chipotle" then some "Chipotle"
  else if strIncludes q "nothing bundt" then some "Nothing Bundt Cakes"
  else none

/-- Model of Number.prototype.toFixed(d) used only as a grouping key:
the sign of the formatted string together with the rounded magnitude
(JavaScript formats a negative value by prepending a minus sign to the
formatted absolute value, so -0.001 and 0.001 land in different keys). -/
def fixedKey (d : ℕ) (q : ℚ) : Bool × ℤ :=
  (q < 0, if q < 0 then ⌊(-q) * (10 : ℚ) ^ d + 1 / 2⌋ else ⌊q * (10 : ℚ) ^ d + 1 / 2⌋)

/-- metersToMiles of route.ts. -/
def metersToMiles (m : ℚ) : ℚ := m / (160934 / 100)

/-- Math.round, which rounds half toward positive infinity. -/
def jsRound (q : ℚ) : ℤ := ⌊q + 1 / 2⌋

/-- One feature of a geocode response.  coords is the (lon, lat) pair of
f.geometry.coordinates when that is an array with at least two numeric
entries; missing or too-short arrays are none. -/
structure Feature where
  coords : Option (ℚ × ℚ)
deriving DecidableEq, Repr

/-- A geocode HTTP response: res.ok, res.status and the features array of
the parsed JSON; a non-array features field is modelled as the empty
list, exactly what the Array.isArray guard of geocodeSearch produces. -/
structure GeoHttp where
  ok : Bool
  status : ℕ
  features : List Feature
deriving DecidableEq, Repr

/-- One result of a Places nearby-search response: the name field (absent
modelled as none, matching the r?.name access) and the geometry location
when both of its components are numbers. -/
structure PlaceResult where
  name : Option String
  loc : Option Geo
deriving DecidableEq, Repr

/-- A Places nearby-search HTTP response: res.ok, res.status, the results
array (non-array modelled as empty, as the Array.isArray guard yields)
and the top-level status string of the JSON body. -/
structure PlacesHttp where
  ok : Bool
  status : ℕ
  results : List PlaceResult
  jstatus : Option String
deriving DecidableEq, Repr

/-- A matrix HTTP response.  A distances or durations row entry is
Option Rat: some q for a finite number, none for a missing, non-numeric
or non-finite entry (the code first coerces non-numbers to NaN and then
filters with isFinite, so these cases are indistinguishable downstream).
distances and durations are the first rows, none when the corresponding
field of the JSON is not an array. -/
structure MatrixHttp where
  ok : Bool
  status : ℕ
  text : String
  distances : Option (List (Option ℚ))
  durations : Option (List (Option ℚ))
deriving DecidableEq, Repr

/-- One step of a solver route.  job is some j when step.job is a number;
a non-integral job number can never match the integer-keyed job table, so
it is modelled as none as well. -/
structure SStep where
  job : Option ℤ
deriving DecidableEq, Repr

/-- One route of a solver response, with its optional aggregate distance
and duration (some = finite number, as for matrix entries). -/
structure SRoute where
  steps : List SStep
  distance : Option ℚ
  duration : Option ℚ
deriving DecidableEq, Repr

/-- A solver HTTP response: res.ok, res.status, the raw body text used in
the 502 note, and the routes array of the parsed JSON. -/
structure SolverHttp where
  ok : Bool
  status : ℕ
  text : String
  routes : List SRoute
deriving DecidableEq, Repr

/-- The environment a request executes against: presence of the two API
keys, the clock, and the observed outcome of every outbound call as a
function of the arguments the code sends.  An Except.error is a rejected
fetch promise (timeout or network error); an ok response with ok = false
is a non-success HTTP status. -/
structure Env where
  orsKey : Bool
  googleKey : Bool
  now : ℕ
  geocode : String → Geo → ℕ → ℕ → Except JsError GeoHttp
  places1 : Geo → String → Except JsError PlacesHttp
  places2 : Geo → String → Except JsError PlacesHttp
  matrix : Geo → List Geo → Except JsError MatrixHttp
  solver : List (ℕ × Geo) → Geo → Geo → Except JsError SolverHttp

deriving instance DecidableEq for Except

/-- geocodeSearch of route.ts: fail without the ORS key, propagate a
rejected fetch, turn a non-success status into a thrown Error, otherwise
return the features list. -/
def geocodeSearch (env : Env) (query : String) (start : Geo) (radius size : ℕ) :
    Except JsError (List Feature) :=
  if env.orsKey = false then .error (.err "Missing ORS_API_KEY in env")
  else
    match env.geocode query start radius size with
    | .error e => .error e
    | .ok h =>
      if h.ok = false then .error (.err ("Geocode failed (" ++ toString h.status ++ ")"))
      else .ok h.features

/-- The three radius passes of geocodeClosest, each with its size cap. -/
def gcPasses : List (ℕ × ℕ) := [(8000, 35), (20000, 35), (50000, 35)]

/-- The per-feature step of the accumulation loop of geocodeClosest:
skip features without usable coordinates, skip candidates whose
5-decimal key was already seen, append new candidates. -/
def gcAcc (p : List ((Bool × ℤ) × (Bool × ℤ)) × List (ℚ × ℚ)) (f : Feature) :
    List ((Bool × ℤ) × (Bool × ℤ)) × List (ℚ × ℚ) :=
  match f.coords with
  | none => p
  | some c =>
    let k := (fixedKey 5 c.1, fixedKey 5 c.2)
    if p.1.contains k then p else (k :: p.1, p.2 ++ [c])

/-- The per-pass accumulation loop of geocodeClosest: run the remaining
passes, deduplicating candidate coordinates by their 5-decimal keys, and
stop early once at least 15 unique candidates were collected. -/
def gcLoop (env : Env) (query : String) (start : Geo) :
    List (ℕ × ℕ) → List ((Bool × ℤ) × (Bool × ℤ)) → List (ℚ × ℚ) →
    Except JsError (List (ℚ × ℚ))
  | [], _, all => .ok all
  | (radius, size) :: rest, seen, all =>
    match geocodeSearch env query start radius size with
    | .error e => .error e
    | .ok feats =>
      let acc := feats.foldl gcAcc (seen, all)
      if 15 ≤ acc.2.length then .ok acc.2
      else gcLoop env query start rest acc.1 acc.2

/-- Interpret a raw (lon, lat) coordinate pair as a Geo. -/
def geoOfPair (c : ℚ × ℚ) : Geo := { lat := c.2, lon := c.1 }

/-- One comparison of the closest-candidate loop of geocodeClosest:
replace the best candidate when strictly closer than the best distance
so far (none models the initial Infinity, which everything beats). -/
def gcPickStep (hav : Geo → Geo → ℚ) (start : Geo) (p : (ℚ × ℚ) × Option ℚ)
    (c : ℚ × ℚ) : (ℚ × ℚ) × Option ℚ :=
  let d := hav start (geoOfPair c)
  if (match p.2 with | none => true | some b => d < b) then (c, some d) else p

/-- The closest-candidate pick of geocodeClosest: best starts at the
first candidate with bestDist = Infinity (modelled as none), and each
candidate strictly closer than the current best replaces it. -/
def gcPick (hav : Geo → Geo → ℚ) (start : Geo) (c0 : ℚ × ℚ) (all : List (ℚ × ℚ)) :
    ℚ × ℚ :=
  (all.foldl (gcPickStep hav start) (c0, none)).1

/-- geocodeClosest of route.ts: accumulate candidates over the radius
passes, throw when none survive, otherwise return the candidate closest
to the reference point. -/
def geocodeClosest (hav : Geo → Geo → ℚ) (env : Env) (query : String) (start : Geo) :
    Except JsError Geo :=
  match gcLoop env query start gcPasses [] [] with
  | .error e => .error e
  | .ok all =>
    match all with
    | [] => .error (.err ("No geocode result for: " ++ query))
    | c0 :: _ => .ok (geoOfPair (gcPick hav start c0 all))

/-- PLACES_TTL_MS of route.ts: 24 hours in milliseconds. -/
def PLACES_TTL_MS : ℕ := 24 * 60 * 60 * 1000

/-- One entry of the module-level placesCache: insertion time and the
cached coordinate. -/
structure CacheEntry where
  storedAt : ℕ
  geo : Geo
deriving DecidableEq, Repr

/-- The cache key of placesCacheKey: the brand name together with the
toFixed(2) keys of the reference latitude and longitude.  The string
key of the source concatenates these with ":" and ","; since brand names
contain no digits or separators, key equality coincides. -/
def placesCacheKey (name : String) (start : Geo) : String × (Bool × ℤ) × (Bool × ℤ) :=
  (name, fixedKey 2 start.lat, fixedKey 2 start.lon)

/-- The placesCache Map, newest binding first; Map.set is modelled by
consing, Map.get by the first binding found. -/
abbrev Cache := List ((String × (Bool × ℤ) × (Bool × ℤ)) × CacheEntry)

/-- Map.get on the cache. -/
def cacheGet (c : Cache) (k : String × (Bool × ℤ) × (Bool × ℤ)) : Option CacheEntry :=
  List.lookup k c

/-- Map.set on the cache. -/
def cacheSet (c : Cache) (k : String × (Bool × ℤ) × (Bool × ℤ)) (e : CacheEntry) : Cache :=
  (k, e) :: c

/-- isGoodMatch of placesNearestByName: the lower-cased result name must
contain the lower-cased brand name. -/
def isGoodMatch (target : String) (r : PlaceResult) : Bool :=
  strIncludes (jsToLower (r.name.getD "")) target

/-- pickFirst of placesNearestByName: the location of the first result,
none when the array is empty or the geometry is unusable. -/
def pickFirst (arr : List PlaceResult) : Option Geo :=
  arr.head?.bind (·.loc)

/-- Stable insertion of one element into a sorted list: the new element
goes before the first strictly-later element, keeping the original order
of comparator-equal elements. -/
def insertLe (le : α → α → Bool) (x : α) : List α → List α
  | [] => [x]
  | y :: ys => if le x y then x :: y :: ys else y :: insertLe le x ys

/-- A stable sort, modelling Array.prototype.sort (which the language
specification requires to be stable); the exact algorithm is not
observable beyond stability and the ordering. -/
def stableSort (le : α → α → Bool) (l : List α) : List α :=
  l.foldr (insertLe le) []

/-- The comparator of the phase-2 sort, as a boolean ordering usable by a
stable sort: results without a usable location sort last, the rest
ascending by haversine distance from the reference point. -/
def placesLe (hav : Geo → Geo → ℚ) (start : Geo) (a b : PlaceResult) : Bool :=
  match a.loc, b.loc with
  | none, none => true
  | none, some _ => false
  | some _, none => true
  | some ag, some bg => hav start ag ≤ hav start bg

/-- placesNearestByName of route.ts, as a pure function of the
environment and the cache.  Returns the outcome, the cache after the
call, and the number of outbound network calls attempted. -/
def placesNearestByName (hav : Geo → Geo → ℚ) (env : Env) (cache : Cache)
    (start : Geo) (name : String) : Except JsError Geo × Cache × ℕ :=
  if env.googleKey = false then
    (.error (.err "Missing GOOGLE_PLACES_API_KEY in env"), cache, 0)
  else
    let key := placesCacheKey name start
    match cacheGet cache key with
    | some e =>
      if env.now - e.storedAt < PLACES_TTL_MS then (.ok e.geo, cache, 0)
      else placesFetch hav env cache key start name
    | none => placesFetch hav env cache key start name
where
  /-- The two network phases, entered on a cache miss or a stale hit. -/
  placesFetch (hav : Geo → Geo → ℚ) (env : Env) (cache : Cache)
      (key : String × (Bool × ℤ) × (Bool × ℤ)) (start : Geo) (name : String) :
      Except JsError Geo × Cache × ℕ :=
    let target := jsToLower name
    match env.places1 start name with
    | .error e => (.error e, cache, 1)
    | .ok h1 =>
      if h1.ok = false then
        (.error (.err ("Places NearbySearch failed (" ++ toString h1.status ++ ")")), cache, 1)
      else
        let good1 := h1.results.filter (isGoodMatch target)
        match pickFirst good1 with
        | some got1 =>
          (.ok got1, cacheSet cache key { storedAt := env.now, geo := got1 }, 1)
        | none =>
          match env.places2 start name with
          | .error e => (.error e, cache, 2)
          | .ok h2 =>
            if h2.ok = false then
              (.error (.err ("Places NearbySearch (radius) failed (" ++ toString h2.status ++ ")")),
                cache, 2)
            else
              let good2 := h2.results.filter (isGoodMatch target)
              if good2.isEmpty then
                (.error (.err ("Places returned no strict match for \"" ++ name ++
                  "\" (status=" ++ (h2.jstatus.getD "unknown") ++ ")")), cache, 2)
              else
                let sorted := stableSort (placesLe hav start) good2
                match pickFirst sorted with
                | none =>
                  (.error (.err ("Places strict match had bad geometry for \"" ++ name ++ "\"")),
                    cache, 2)
                | some got2 =>
                  (.ok got2, cacheSet cache key { storedAt := env.now, geo := got2 }, 2)

/-- resolveStopGeo of route.ts: brand queries go through the strict
Places lookup (threading the cache), anything else through the generic
geocoder. -/
def resolveStopGeo (hav : Geo → Geo → ℚ) (env : Env) (cache : Cache)
    (query : String) (start : Geo) : Except JsError (Geo × String) × Cache :=
  match detectChain query with
  | some name =>
    match placesNearestByName hav env cache start name with
    | (.error e, c, _) => (.error e, c)
    | (.ok geo, c, _) => (.ok (geo, "google_places:" ++ name), c)
  | none =>
    match geocodeClosest hav env query start with
    | .error e => (.error e, cache)
    | .ok geo => (.ok (geo, "ors"), cache)

/-- One stop request of the incoming body. -/
structure StopRequest where
  id : String
  query : String
deriving DecidableEq, Repr

/-- A resolved stop before driving enrichment, as built inside the
Promise.all callback. -/
structure RStopBase where
  id : String
  query : String
  pickedFrom : String
  geo : Geo
  dist_mi : ℚ
deriving DecidableEq, Repr

/-- The Promise.all stop-resolution step.  The source issues the
resolutions concurrently and Promise.all rejects with the first failure;
the cache interleaving of concurrent brand lookups is not deterministic,
so the embedding threads the cache sequentially in input order, which
agrees with the source on every observable the claims mention (results,
failure atomicity, lengths, ids). -/
def resolveStopsSeq (hav : Geo → Geo → ℚ) (env : Env) :
    List StopRequest → Geo → Cache → Except JsError (List RStopBase × Cache)
  | [], _, cache => .ok ([], cache)
  | s :: rest, start, cache =>
    match resolveStopGeo hav env cache s.query start with
    | (.error e, _) => .error e
    | (.ok (geo, pickedFrom), cache') =>
      match resolveStopsSeq hav env rest start cache' with
      | .error e => .error e
      | .ok (l, cache'') =>
        .ok ({ id := s.id, query := s.query, pickedFrom := pickedFrom, geo := geo,
               dist_mi := metersToMiles (hav start geo) } :: l, cache'')

/-- matrixFromStart of route.ts: fail without the ORS key, propagate a
rejected fetch, throw on a non-success status or when either row of the
JSON is not an array, otherwise return the two rows.  The per-entry
coercion of non-numbers to NaN is already folded into the Option Rat
entry type of MatrixHttp. -/
def matrixFromStart (env : Env) (start : Geo) (stops : List Geo) :
    Except JsError (List (Option ℚ) × List (Option ℚ)) :=
  if env.orsKey = false then .error (.err "Missing ORS_API_KEY in env")
  else
    match env.matrix start stops with
    | .error e => .error e
    | .ok h =>
      if h.ok = false then
        .error (.err ("ORS matrix failed (" ++ toString h.status ++ "): " ++ h.text))
      else
        match h.distances, h.durations with
        | some ds, some ts => .ok (ds, ts)
        | _, _ => .error (.err "ORS matrix returned unexpected format")

/-- The try/catch around the matrix call in POST: any failure leaves both
driving arrays null. -/
def matrixStep (env : Env) (start : Geo) (stops : List Geo) :
    Option (List (Option ℚ)) × Option (List (Option ℚ)) :=
  match matrixFromStart env start stops with
  | .error _ => (none, none)
  | .ok (ds, ts) => (some ds, some ts)

/-- drivingMeters?.[idx] followed by the typeof/isFinite guard and the
meters-to-miles conversion. -/
def driveOf (dm : Option (List (Option ℚ))) (idx : ℕ) : Option ℚ :=
  ((dm.bind (fun l => l.get? idx)).bind id).map metersToMiles

/-- drivingSeconds?.[idx] followed by the typeof/isFinite guard and the
ETA derivation max(1, round(sec / 60)). -/
def etaOf (ds : Option (List (Option ℚ))) (idx : ℕ) : Option ℤ :=
  ((ds.bind (fun l => l.get? idx)).bind id).map (fun sec => max 1 (jsRound (sec / 60)))

/-- A resolved stop after driving enrichment. -/
structure RStop where
  id : String
  query : String
  pickedFrom : String
  geo : Geo
  dist_mi : ℚ
  drive_mi : Option ℚ
  eta_min : Option ℤ
deriving DecidableEq, Repr

/-- The body of the resolvedStops mapping of POST for one stop at one
index: spread the base stop and attach the idx-th driving distance and
ETA when present and finite. -/
def enrichOne (dm ds : Option (List (Option ℚ))) (idx : ℕ) (b : RStopBase) : RStop :=
  { id := b.id, query := b.query, pickedFrom := b.pickedFrom, geo := b.geo,
    dist_mi := b.dist_mi, drive_mi := driveOf dm idx, eta_min := etaOf ds idx }

/-- The resolvedStops mapping of POST, indexed from idx. -/
def mkResolvedList (dm ds : Option (List (Option ℚ))) :
    List RStopBase → ℕ → List RStop
  | [], _ => []
  | b :: rest, idx => enrichOne dm ds idx b :: mkResolvedList dm ds rest (idx + 1)

/-- The ranking distance of the suggested-destination loop: drive_mi when
it is a number, else dist_mi. -/
def rank (s : RStop) : ℚ :=
  match s.drive_mi with
  | some d => d
  | none => s.dist_mi

/-- One comparison step of the suggested-destination loop: replace the
current best only on a strictly greater ranking distance. -/
def pickStep (acc s : RStop) : RStop :=
  if rank acc < rank s then s else acc

/-- The suggested-destination loop of POST: start from resolvedStops[0]
and scan the whole list with the strict comparison; none on an empty
list, where the source would fault. -/
def pickFarthest (l : List RStop) : Option RStop :=
  match l with
  | [] => none
  | a :: _ => some (l.foldl pickStep a)

/-- The intToId lookup of POST combined with the job-id assignment: job
ids are the 1-based positions of the non-destination stops, so a numeric
step job j maps to the id of the (j-1)-th such stop; out-of-range jobs
are absent from the table.  The subsequent if (realId) guard drops an
empty-string id, which is falsy in JavaScript. -/
def jobLookup (jobs : List RStop) (j : ℤ) : Option String :=
  if 1 ≤ j then
    match jobs.get? (j - 1).toNat with
    | some s => if s.id = "" then none else some s.id
    | none => none
  else none

/-- The step-walking loop that builds orderedIntermediate. -/
def orderedIntermediate (jobs : List RStop) (steps : List SStep) : List String :=
  steps.filterMap (fun st => st.job.bind (jobLookup jobs))

/-- The job ids the code assigns: 1..n in order. -/
def jobIds (n : ℕ) : List ℤ := (List.range n).map (fun i : ℕ => (i : ℤ) + 1)

/-- The incoming request body, after JSON parsing. -/
structure ReqBody where
  startQuery : Option String
  startCoords : Option Geo
  destinationId : Option String
  previewOnly : Option Bool
  stops : List StopRequest
deriving DecidableEq, Repr

/-- The error response body: optimized is false, note explains, and the
no-stops branch additionally carries an empty orderedIds array. -/
structure ErrBody where
  note : String
  orderedIds : Option (List String)
deriving DecidableEq, Repr

/-- One stop of the preview response. -/
structure PrevStop where
  id : String
  dist_mi : ℚ
  eta_min : Option ℤ
  lat : ℚ
  lon : ℚ
  pickedFrom : String
deriving DecidableEq, Repr

/-- The preview response body. -/
structure PreviewBody where
  startUsed : Geo × String
  suggestedDestinationId : String
  stops : List PrevStop
  note : String
deriving DecidableEq, Repr

/-- One stop of the final response. -/
structure RespStop where
  id : String
  lat : ℚ
  lon : ℚ
  pickedFrom : String
deriving DecidableEq, Repr

/-- The final (optimized) response body. -/
structure FinalBody where
  orderedIds : List String
  destinationId : String
  note : String
  routeDistance_m : Option ℚ
  routeDuration_s : Option ℚ
  startUsed : Geo × String
  resolvedStops : List RespStop
deriving DecidableEq, Repr

/-- The JSON body of a response, by shape. -/
inductive ApiBody where
  | fail (e : ErrBody)
  | preview (p : PreviewBody)
  | final (f : FinalBody)
deriving DecidableEq, Repr

/-- A response: HTTP status plus body.  NextResponse.json defaults to
status 200 when none is given. -/
structure ApiResponse where
  status : ℕ
  body : ApiBody
deriving DecidableEq, Repr

/-- A 4xx/5xx error response with optimized: false. -/
def errResp (status : ℕ) (note : String) : ApiResponse :=
  { status := status, body := .fail { note := note, orderedIds := none } }

/-- The fixed reference point for free-text origins. -/
def vegasSeed : Geo := { lat := 361699 / 10000, lon := -1151398 / 10000 }

/-- The outcome of the origin-resolution block of POST. -/
inductive StartOutcome where
  | missing
  | failed (e : JsError)
  | resolved (g : Geo) (src : String)
deriving DecidableEq, Repr

/-- The origin-resolution block of POST: coordinates win, else a
non-blank startQuery is geocoded with " United States" appended around
the fixed Las Vegas seed, else the request is invalid. -/
def resolveStart (hav : Geo → Geo → ℚ) (env : Env) (body : ReqBody) : StartOutcome :=
  match body.startCoords with
  | some c => .resolved c "gps"
  | none =>
    match body.startQuery with
    | some q =>
      if jsTrim q = "" then .missing
      else
        match geocodeClosest hav env (jsTrim q ++ " United States") vegasSeed with
        | .error e => .failed e
        | .ok g => .resolved g "zip"
    | none => .missing

/-- The destination block of POST: the trimmed caller override wins when
it is non-empty and names a resolved stop, else the suggested stop. -/
def destIdOf (body : ReqBody) (resolved : List RStop) (suggested : RStop) : String :=
  let requested := jsTrim (body.destinationId.getD "")
  if requested ≠ "" ∧ resolved.any (fun s => s.id = requested) then requested
  else suggested.id

/-- The job list of POST: every resolved stop except the destination. -/
def jobsListOf (resolved : List RStop) (destinationId : String) : List RStop :=
  resolved.filter (fun s => s.id ≠ destinationId)

/-- The solver jobs: 1-based dense ids in input order with locations. -/
def solverJobsOf (jobsList : List RStop) : List (ℕ × Geo) :=
  (List.range jobsList.length).zip jobsList |>.map (fun p => (p.1 + 1, p.2.geo))

/-- Everything of POST from the destination block to the final response:
destination override, job construction, solver call, order
reconstruction.  resolved is the enriched stop list, suggested the
pre-computed farthest stop. -/
def finalPhase (env : Env) (body : ReqBody) (start : Geo) (src : String)
    (resolved : List RStop) (suggested : RStop) : Except JsError ApiResponse :=
  let destinationId := destIdOf body resolved suggested
  let jobsList := jobsListOf resolved destinationId
  let jobs := solverJobsOf jobsList
  match resolved.find? (fun s => s.id = destinationId) with
  | none => .error (.err "Cannot read properties of undefined (reading geo)")
  | some destStop =>
    match env.solver jobs start destStop.geo with
    | .error e => .error e
    | .ok h =>
      if h.ok = false then
        .ok (errResp 502 ("ORS optimization failed (" ++ toString h.status ++ "): " ++ h.text))
      else
        let route := h.routes.head?
        let steps := (route.map SRoute.steps).getD []
        let orderedIds := orderedIntermediate jobsList steps ++ [destinationId]
        .ok { status := 200, body := .final {
          orderedIds := orderedIds,
          destinationId := destinationId,
          note := "Optimized route",
          routeDistance_m := route.bind SRoute.distance,
          routeDuration_s := route.bind SRoute.duration,
          startUsed := (start, src),
          resolvedStops := resolved.map (fun s =>
            { id := s.id, lat := s.geo.lat, lon := s.geo.lon, pickedFrom := s.pickedFrom }) } }

/-- The enriched stop list of POST: the matrix attempt followed by the
per-stop enrichment mapping, starting at index 0. -/
def resolvedOf (env : Env) (start : Geo) (base : List RStopBase) : List RStop :=
  let mrows := matrixStep env start (base.map RStopBase.geo)
  mkResolvedList mrows.1 mrows.2 base 0

/-- The preview response of POST. -/
def previewAssemble (start : Geo) (src : String) (resolved : List RStop)
    (suggested : RStop) : ApiResponse :=
  { status := 200, body := .preview {
      startUsed := (start, src),
      suggestedDestinationId := suggested.id,
      stops := resolved.map (fun s =>
        { id := s.id,
          dist_mi := match s.drive_mi with | some d => d | none => s.dist_mi,
          eta_min := s.eta_min, lat := s.geo.lat, lon := s.geo.lon,
          pickedFrom := s.pickedFrom }),
      note := "Preview distances + ETA computed" } }

/-- Everything of POST after the origin is known: stop resolution,
best-effort matrix enrichment, suggested destination, and the preview or
final assembly. -/
def afterStart (hav : Geo → Geo → ℚ) (env : Env) (cache : Cache) (body : ReqBody)
    (start : Geo) (src : String) : Except JsError ApiResponse :=
  match resolveStopsSeq hav env body.stops start cache with
  | .error e => .error e
  | .ok (base, _) =>
    let resolved := resolvedOf env start base
    match pickFarthest resolved with
    | none => .error (.err "Cannot read properties of undefined (reading drive_mi)")
    | some suggested =>
      if body.previewOnly = some true then
        .ok (previewAssemble start src resolved suggested)
      else finalPhase env body start src resolved suggested

/-- The try block of POST. -/
def POSTtry (hav : Geo → Geo → ℚ) (env : Env) (cache : Cache) (body : ReqBody) :
    Except JsError ApiResponse :=
  if env.orsKey = false then .ok (errResp 500 "Missing ORS_API_KEY")
  else if env.googleKey = false then .ok (errResp 500 "Missing GOOGLE_PLACES_API_KEY")
  else
    match body.stops with
    | [] => .ok { status := 400, body := .fail { note := "No stops provided", orderedIds := some [] } }
    | _ :: _ =>
      match resolveStart hav env body with
      | .missing => .ok (errResp 400 "Missing start (coords or zip)")
      | .failed e => .error e
      | .resolved start src => afterStart hav env cache body start src

/-- POST of route.ts: the try block with its catch-all, which turns any
thrown error into a 500 with the derived note. -/
def POST (hav : Geo → Geo → ℚ) (env : Env) (cache : Cache) (body : ReqBody) :
    ApiResponse :=
  match POSTtry hav env cache body with
  | .ok r => r
  | .error e => errResp 500 (errNote e)

/-- A coordinate over the reals, for the haversine formula itself. -/
structure GeoR where
  lat : ℝ
  lon : ℝ

/-- haversineMeters of route.ts, over the reals: Earth radius 6371000 m,
degree-to-radian conversion, the haversine term h, and
2 R asin(min(1, sqrt h)). -/
noncomputable def haversineMeters (a b : GeoR) : ℝ :=
  2 * 6371000 * Real.arcsin (min 1 (Real.sqrt (
    Real.sin ((b.lat - a.lat) * Real.pi / 180 / 2) ^ 2 +
      Real.cos (a.lat * Real.pi / 180) * Real.cos (b.lat * Real.pi / 180) *
        Real.sin ((b.lon - a.lon) * Real.pi / 180 / 2) ^ 2)))

/-- The geocoder honoring the requested boundary circle: every feature
of a successful response lies within the requested radius of the
requested circle center, measured by the distance function in use. -/
def respectsBoundary (hav : Geo → Geo → ℚ) (env : Env) : Prop :=
  ∀ q c radius size h, env.geocode q c radius size = .ok h →
    ∀ f ∈ h.features, ∀ p, f.coords = some p → hav c (geoOfPair p) ≤ (radius : ℚ)

/-- A trivial distance function, for concrete instantiations. -/
def hav0 : Geo → Geo → ℚ := fun _ _ => 0

/-- A distance function that ranks a point by its latitude, making
concrete destination choices easy to steer. -/
def havLat : Geo → Geo → ℚ := fun _ g => g.lat

/-- A concrete GPS start. -/
def gStart : Geo := { lat := 36, lon := -115 }

/-- A geocoder response with one feature at the given coordinates. -/
def okGeoHttp (c : ℚ × ℚ) : GeoHttp :=
  { ok := true, status := 200, features := [{ coords := some c }] }

/-- A successful solver response that visits n jobs in id order. -/
def solverOkResp (n : ℕ) : SolverHttp :=
  { ok := true, status := 200, text := "",
    routes := [{ steps := (jobIds n).map (fun j => { job := some j }),
                 distance := some 5, duration := some 300 }] }

/-- A concrete environment: both keys present, the geocoder answering
query "x" with (1, 1) and anything else with (2, 2), Places and matrix
failing, and a well-behaved solver that visits every job in id order. -/
def envBase : Env :=
  { orsKey := true
    googleKey := true
    now := 0
    geocode := fun q _ _ _ => .ok (okGeoHttp (if q = "x" then (1, 1) else (2, 2)))
    places1 := fun _ _ => .error .abort
    places2 := fun _ _ => .error .abort
    matrix := fun _ _ => .error .abort
    solver := fun jobs _ _ => .ok (solverOkResp jobs.length) }

/-- envBase without the ORS key. -/
def envNoOrs : Env := { envBase with orsKey := false }

/-- envBase without the Google key. -/
def envNoGoogle : Env := { envBase with googleKey := false }

/-- envBase with every geocoder call answering a non-success status. -/
def envGeoFail : Env :=
  { envBase with geocode := fun _ _ _ _ => .ok { ok := false, status := 404, features := [] } }

/-- envBase with a solver answering a non-success status. -/
def envSolverFail : Env :=
  { envBase with solver := fun _ _ _ => .ok { ok := false, status := 503, text := "busy", routes := [] } }

/-- envBase with a solver that answers success but an empty routes
array (no steps at all). -/
def envEmptyRoutes : Env :=
  { envBase with solver := fun _ _ _ => .ok { ok := true, status := 200, text := "", routes := [] } }

/-- envBase with a successful matrix response: finite entries for the
first stop, a non-finite distance and missing duration for the second. -/
def okMatrixHttp : MatrixHttp :=
  { ok := true, status := 200, text := "",
    distances := some [some 8047, none],
    durations := some [some 90, none] }

def envMatrixOk : Env := { envBase with matrix := fun _ _ => .ok okMatrixHttp }

/-- A two-stop request body with a GPS start and no overrides. -/
def bodyAB : ReqBody :=
  { startQuery := none, startCoords := some gStart, destinationId := none
    previewOnly := none, stops := [{ id := "a", query := "x" }, { id := "b", query := "y" }] }

/-- bodyAB in preview mode. -/
def bodyABprev : ReqBody := { bodyAB with previewOnly := some true }

/-- A one-stop request body with a free-text start. -/
def bodyZip : ReqBody :=
  { startQuery := some "89109", startCoords := none, destinationId := none
    previewOnly := none, stops := [{ id := "a", query := "x" }] }

/-- A request body with no stops. -/
def bodyNoStops : ReqBody :=
  { startQuery := none, startCoords := some gStart, destinationId := none
    previewOnly := none, stops := [] }

/-- A request body with stops but neither start form. -/
def bodyNoStart : ReqBody :=
  { startQuery := none, startCoords := none, destinationId := none
    previewOnly := none, stops := [{ id := "a", query := "x" }] }

/-- A two-stop request whose first stop id carries surrounding spaces,
with that exact id supplied as the destination override. -/
def bodyTrim : ReqBody :=
  { startQuery := none, startCoords := some gStart, destinationId := some " a "
    previewOnly := none, stops := [{ id := " a ", query := "x" }, { id := "b", query := "y" }] }

/-- bodyAB with the destination override "a". -/
def bodyDestA : ReqBody := { bodyAB with destinationId := some "a" }

/-- A Places phase-2 result for the cache scenario. -/
def placeHit : PlaceResult := { name := some "Starbucks Reserve", loc := some { lat := 3, lon := 3 } }

/-- An environment whose Places rank-by-distance phase answers an empty
result list and whose radius phase answers one strict match, so a cache
miss costs two network calls. -/
def envPlaces : Env :=
  { envBase with
    places1 := fun _ _ => .ok { ok := true, status := 200, results := [], jstatus := some "ZERO_RESULTS" }
    places2 := fun _ _ => .ok { ok := true, status := 200, results := [placeHit], jstatus := some "OK" } }

/-- envPlaces observed 1000 ms later. -/
def envPlacesLater : Env := { envPlaces with now := 1000 }

/-- The first reference point of the cache scenario. -/
def pRef : Geo := { lat := 10, lon := 20 }

/-- A nearby reference point in the same 2-decimal grid cell. -/
def pRefNear : Geo := { lat := 10001 / 1000, lon := 20001 / 1000 }

/-- The cache state after the first resolution of the cache scenario. -/
def cachePl : Cache :=
  [(placesCacheKey "Starbucks" pRef, { storedAt := 0, geo := { lat := 3, lon := 3 } })]

/-- An environment whose geocoder returns one fixed in-boundary feature. -/
def envGeo9 : Env :=
  { envBase with geocode := fun _ _ _ _ => .ok (okGeoHttp (7, 8)) }

/-- A free-text start with surrounding blanks, for the origin scenario. -/
def bodyZipPad : ReqBody :=
  { startQuery := some " 89109 ", startCoords := none, destinationId := none
    previewOnly := none, stops := [{ id := "a", query := "x" }] }

/-- The final body POST produces for bodyAB over envBase with havLat. -/
def fAB : FinalBody :=
  { orderedIds := ["a", "b"], destinationId := "b", note := "Optimized route",
    routeDistance_m := some 5, routeDuration_s := some 300,
    startUsed := (gStart, "gps"),
    resolvedStops := [{ id := "a", lat := 1, lon := 1, pickedFrom := "ors" },
                      { id := "b", lat := 2, lon := 2, pickedFrom := "ors" }] }

/-- The final body POST produces for bodyTrim over envBase with havLat. -/
def fTrim : FinalBody :=
  { orderedIds := [" a ", "b"], destinationId := "b", note := "Optimized route",
    routeDistance_m := some 5, routeDuration_s := some 300,
    startUsed := (gStart, "gps"),
    resolvedStops := [{ id := " a ", lat := 1, lon := 1, pickedFrom := "ors" },
                      { id := "b", lat := 2, lon := 2, pickedFrom := "ors" }] }

/-- The final body POST produces for bodyDestA over envBase with havLat. -/
def fDestA : FinalBody :=
  { orderedIds := ["b", "a"], destinationId := "a", note := "Optimized route",
    routeDistance_m := some 5, routeDuration_s := some 300,
    startUsed := (gStart, "gps"),
    resolvedStops := [{ id := "a", lat := 1, lon := 1, pickedFrom := "ors" },
                      { id := "b", lat := 2, lon := 2, pickedFrom := "ors" }] }

/-- The final body POST produces for bodyAB over envEmptyRoutes. -/
def fEmpty : FinalBody :=
  { orderedIds := ["b"], destinationId := "b", note := "Optimized route",
    routeDistance_m := none, routeDuration_s := none,
    startUsed := (gStart, "gps"),
    resolvedStops := [{ id := "a", lat := 1, lon := 1, pickedFrom := "ors" },
                      { id := "b", lat := 2, lon := 2, pickedFrom := "ors" }] }

/-- The resolved stop bases POST computes for bodyAB over envBase. -/
def baseAB : List RStopBase :=
  [{ id := "a", query := "x", pickedFrom := "ors", geo := { lat := 1, lon := 1 },
     dist_mi := metersToMiles (havLat gStart { lat := 1, lon := 1 }) },
   { id := "b", query := "y", pickedFrom := "ors", geo := { lat := 2, lon := 2 },
     dist_mi := metersToMiles (havLat gStart { lat := 2, lon := 2 }) }]

/-- Two enriched stops for exercising the destination selector. -/
def wStopA : RStop :=
  { id := "a", query := "x", pickedFrom := "ors", geo := { lat := 1, lon := 1 }
    dist_mi := 5, drive_mi := none, eta_min := none }

def wStopB : RStop :=
  { id := "b", query := "y", pickedFrom := "ors", geo := { lat := 2, lon := 2 }
    dist_mi := 3, drive_mi := some 7, eta_min := some 9 }

attribute [local semireducible] Rat.mul Rat.add Rat.sub Rat.inv

/-- C8.  The haversine distance is symmetric in its two arguments, and
the distance from any coordinate to itself is zero. -/
theorem haversine_symm_and_self_zero :
    (∀ a b : GeoR, haversineMeters a b = haversineMeters b a) ∧
    (∀ a : GeoR, haversineMeters a a = 0) := by
  constructor
  · intro a b
    have hd : ∀ x y : ℝ, (x - y) * Real.pi / 180 / 2 = -((y - x) * Real.pi / 180 / 2) := by
      intro x y; ring
    simp only [haversineMeters]
    rw [hd a.lat b.lat, hd a.lon b.lon, Real.sin_neg, Real.sin_neg, neg_sq, neg_sq,
      mul_comm (Real.cos (b.lat * Real.pi / 180)) (Real.cos (a.lat * Real.pi / 180))]
  · intro a
    simp only [haversineMeters, sub_self, zero_mul, zero_div, Real.sin_zero]
    norm_num [Real.sqrt_zero, Real.arcsin_zero]

section DestinationSelector

/-- pickStep keeps the seed or takes the candidate. -/
lemma pickStep_eq_or (acc s : RStop) : pickStep acc s = s ∨ pickStep acc s = acc := by
  unfold pickStep
  by_cases h : rank acc < rank s
  · exact Or.inl (if_pos h)
  · exact Or.inr (if_neg h)

/-- pickStep never decreases the rank of the running best. -/
lemma rank_le_pickStep_left (acc s : RStop) : rank acc ≤ rank (pickStep acc s) := by
  unfold pickStep
  by_cases h : rank acc < rank s
  · rw [if_pos h]; exact le_of_lt h
  · rw [if_neg h]

/-- The candidate never outranks the result of its own pickStep. -/
lemma rank_le_pickStep_right (acc s : RStop) : rank s ≤ rank (pickStep acc s) := by
  unfold pickStep
  by_cases h : rank acc < rank s
  · rw [if_pos h]
  · rw [if_neg h]; exact le_of_not_lt h

/-- The scan of the suggested-destination loop never decreases the
ranking distance of the running best. -/
lemma rank_acc_le_foldl (xs : List RStop) : ∀ acc : RStop,
    rank acc ≤ rank (xs.foldl pickStep acc) := by
  induction xs with
  | nil => intro acc; exact le_refl _
  | cons s xs ih =>
    intro acc
    exact le_trans (rank_le_pickStep_left acc s) (ih (pickStep acc s))

/-- Every scanned stop ranks no higher than the final best. -/
lemma rank_le_foldl (xs : List RStop) : ∀ acc : RStop, ∀ s ∈ xs,
    rank s ≤ rank (xs.foldl pickStep acc) := by
  induction xs with
  | nil => intro _ s hs; cases hs
  | cons x xs ih =>
    intro acc s hs
    rcases List.mem_cons.mp hs with h | h
    · subst h
      exact le_trans (rank_le_pickStep_right acc s) (rank_acc_le_foldl xs (pickStep acc s))
    · exact ih (pickStep acc x) s h

/-- The final best is the seed or one of the scanned stops. -/
lemma foldl_mem (xs : List RStop) : ∀ acc : RStop,
    xs.foldl pickStep acc = acc ∨ xs.foldl pickStep acc ∈ xs := by
  induction xs with
  | nil => intro acc; exact Or.inl rfl
  | cons x xs ih =>
    intro acc
    rw [List.foldl_cons]
    rcases ih (pickStep acc x) with h | h
    · rw [h]
      rcases pickStep_eq_or acc x with h2 | h2
      · rw [h2]; exact Or.inr (List.mem_cons_self _ _)
      · rw [h2]; exact Or.inl rfl
    · exact Or.inr (List.mem_cons_of_mem _ h)

/-- First-match-wins characterization of the scan: either no stop beats
the seed and the seed survives, or the final best sits at an index whose
strict predecessors all rank strictly lower. -/
lemma foldl_first (xs : List RStop) : ∀ acc : RStop,
    (xs.foldl pickStep acc = acc ∧ ∀ s ∈ xs, rank s ≤ rank acc) ∨
    ∃ i, ∃ hi : i < xs.length,
      xs.get ⟨i, hi⟩ = xs.foldl pickStep acc ∧
      rank acc < rank (xs.foldl pickStep acc) ∧
      ∀ j, ∀ hj : j < i,
        rank (xs.get ⟨j, Nat.lt_trans hj hi⟩) < rank (xs.foldl pickStep acc) := by
  induction xs with
  | nil => intro acc; exact Or.inl ⟨rfl, by intro s hs; cases hs⟩
  | cons x xs ih =>
    intro acc
    rw [List.foldl_cons]
    rcases ih (pickStep acc x) with ⟨heq, hall⟩ | ⟨i, hi, hget, hlt, hbef⟩
    · by_cases hax : rank acc < rank x
      · have hx : pickStep acc x = x := by unfold pickStep; rw [if_pos hax]
        rw [hx] at heq hall ⊢
        refine Or.inr ⟨0, Nat.succ_pos _, ?_, ?_, ?_⟩
        · rw [heq]; rfl
        · rw [heq]; exact hax
        · intro j hj; cases hj
      · have hx : pickStep acc x = acc := by unfold pickStep; rw [if_neg hax]
        rw [hx] at heq hall ⊢
        refine Or.inl ⟨heq, ?_⟩
        intro s hs
        rcases List.mem_cons.mp hs with h | h
        · subst h; exact le_of_not_lt hax
        · exact hall s h
    · refine Or.inr ⟨i + 1, Nat.succ_lt_succ hi, ?_, ?_, ?_⟩
      · simpa using hget
      · exact lt_of_le_of_lt (rank_le_pickStep_left acc x) hlt
      · intro j hj
        match j, hj with
        | 0, _ =>
          show rank x < _
          exact lt_of_le_of_lt (rank_le_pickStep_right acc x) hlt
        | (k + 1), hj =>
          have hk : k < i := Nat.lt_of_succ_lt_succ hj
          simpa using hbef k hk

/-- The suggested-destination loop returns a member of maximal rank
whose strict predecessors all rank strictly lower. -/
lemma pickFarthest_max (l : List RStop) (p : RStop)
    (h : pickFarthest l = some p) :
    p ∈ l ∧ (∀ r ∈ l, rank r ≤ rank p) ∧
    ∃ i, ∃ hi : i < l.length,
      l.get ⟨i, hi⟩ = p ∧
      ∀ j, ∀ hj : j < i, rank (l.get ⟨j, Nat.lt_trans hj hi⟩) < rank p := by
  match l, h with
  | a :: rest, h =>
    have hp : (a :: rest).foldl pickStep a = p := by
      simpa [pickFarthest] using h
    refine ⟨?_, ?_, ?_⟩
    · rcases foldl_mem (a :: rest) a with h1 | h1
      · rw [← hp, h1]; exact List.mem_cons_self _ _
      · rw [← hp]; exact h1
    · intro r hr; rw [← hp]; exact rank_le_foldl (a :: rest) a r hr
    · rcases foldl_first (a :: rest) a with ⟨heq, _⟩ | ⟨i, hi, hget, _, hbef⟩
      · refine ⟨0, Nat.succ_pos _, ?_, ?_⟩
        · rw [← hp, heq]; rfl
        · intro j hj; cases hj
      · refine ⟨i, hi, ?_, ?_⟩
        · rw [← hp]; exact hget
        · intro j hj; rw [← hp]; exact hbef j hj

/-- C5.  With no destination override, the suggested-destination loop
returns a stop of the list whose ranking distance (driving when present,
else straight-line) is maximal, and every stop strictly before it in
input order ranks strictly lower, so ties resolve to the earliest stop
(the comparison is strict). -/
theorem pickFarthest_spec (l : List RStop) (p : RStop)
    (h : pickFarthest l = some p) :
    p ∈ l ∧ (∀ r ∈ l, rank r ≤ rank p) ∧
    ∃ i, ∃ hi : i < l.length,
      l.get ⟨i, hi⟩ = p ∧
      ∀ j, ∀ hj : j < i, rank (l.get ⟨j, Nat.lt_trans hj hi⟩) < rank p :=
  pickFarthest_max l p h

end DestinationSelector

section PipelineLemmas

/-- Stop resolution is atomic and order-preserving: a successful
Promise.all yields exactly one resolved stop per input stop, with the
ids in input order. -/
lemma resolveStopsSeq_ids (hav : Geo → Geo → ℚ) (env : Env) :
    ∀ (stops : List StopRequest) (start : Geo) (cache : Cache)
      (base : List RStopBase) (cache' : Cache),
      resolveStopsSeq hav env stops start cache = .ok (base, cache') →
      base.map RStopBase.id = stops.map StopRequest.id := by
  intro stops
  induction stops with
  | nil =>
    intro start cache base cache' h
    simp only [resolveStopsSeq] at h
    cases h
    rfl
  | cons s rest ih =>
    intro start cache base cache' h
    simp only [resolveStopsSeq] at h
    rcases hg : resolveStopGeo hav env cache s.query start with ⟨res, c1⟩
    rw [hg] at h
    rcases res with e | ⟨geo, pf⟩
    · cases h
    · dsimp only at h
      rcases hs : resolveStopsSeq hav env rest start c1 with e2 | ⟨l, c2⟩ <;>
        rw [hs] at h <;> dsimp only at h
      · cases h
      · cases h
        simp only [List.map_cons]
        rw [ih start c1 l _ hs]

/-- Enrichment keeps the ids of the base stops, in order. -/
lemma mkResolvedList_map_id (dm ds : Option (List (Option ℚ))) :
    ∀ (base : List RStopBase) (i : ℕ),
      (mkResolvedList dm ds base i).map RStop.id = base.map RStopBase.id := by
  intro base
  induction base with
  | nil => intro i; rfl
  | cons b rest ih => intro i; simp [mkResolvedList, enrichOne, ih]

/-- Enrichment keeps the length of the base list. -/
lemma mkResolvedList_length (dm ds : Option (List (Option ℚ))) :
    ∀ (base : List RStopBase) (i : ℕ),
      (mkResolvedList dm ds base i).length = base.length := by
  intro base
  induction base with
  | nil => intro i; rfl
  | cons b rest ih => intro i; simp [mkResolvedList, ih]

/-- The k-th enriched stop is the k-th base stop enriched at offset
index i + k. -/
lemma mkResolvedList_get? (dm ds : Option (List (Option ℚ))) :
    ∀ (base : List RStopBase) (i k : ℕ),
      (mkResolvedList dm ds base i).get? k = (base.get? k).map (enrichOne dm ds (i + k)) := by
  intro base
  induction base with
  | nil => intro i k; simp [mkResolvedList]
  | cons b rest ih =>
    intro i k
    cases k with
    | zero => simp [mkResolvedList]
    | succ k =>
      have hik : i + 1 + k = i + (k + 1) := by omega
      simp only [mkResolvedList, List.get?_cons_succ, ih (i + 1) k, hik]

/-- resolvedOf keeps the ids of the base stops. -/
lemma resolvedOf_map_id (env : Env) (start : Geo) (base : List RStopBase) :
    (resolvedOf env start base).map RStop.id = base.map RStopBase.id :=
  mkResolvedList_map_id _ _ base 0

/-- The k-th stop of resolvedOf. -/
lemma resolvedOf_get? (env : Env) (start : Geo) (base : List RStopBase) (k : ℕ) :
    (resolvedOf env start base).get? k =
      (base.get? k).map (enrichOne (matrixStep env start (base.map RStopBase.geo)).1
        (matrixStep env start (base.map RStopBase.geo)).2 k) := by
  have h := mkResolvedList_get? (matrixStep env start (base.map RStopBase.geo)).1
    (matrixStep env start (base.map RStopBase.geo)).2 base 0 k
  simpa [resolvedOf] using h

/-- Walking the job table over the full id range 1..n recovers exactly
the job stops ids, in order, provided no id is the empty string (an
empty id would be dropped by the falsy-string guard). -/
lemma jobIds_filterMap :
    ∀ (L : List RStop), (∀ s ∈ L, s.id ≠ "") →
      (jobIds L.length).filterMap (jobLookup L) = L.map RStop.id := by
  intro L
  induction L with
  | nil => intro _; simp [jobIds]
  | cons x xs ih =>
    intro hne
    have hx : x.id ≠ "" := hne x (List.mem_cons_self _ _)
    have h0 : ∀ n : ℕ, jobIds (n + 1) =
        (1 : ℤ) :: (List.range n).map (fun i : ℕ => (i : ℤ) + 2) := by
      intro n
      simp only [jobIds, List.range_succ_eq_map, List.map_cons, List.map_map,
        Nat.cast_zero, zero_add]
      refine congrArg (List.cons 1) ?_
      apply List.map_congr_left
      intro a _
      simp only [Function.comp_apply]
      push_cast
      ring
    have h1 : jobLookup (x :: xs) 1 = some x.id := by
      simp [jobLookup, hx]
    have h2 : ∀ i : ℕ, jobLookup (x :: xs) ((i : ℤ) + 2) = jobLookup xs ((i : ℤ) + 1) := by
      intro i
      have e2 : ((i : ℤ) + 2 - 1).toNat = i + 1 := by omega
      have e1 : ((i : ℤ) + 1 - 1).toNat = i := by omega
      simp [jobLookup, e2, e1, show (1 : ℤ) ≤ (i : ℤ) + 2 by omega,
        show (1 : ℤ) ≤ (i : ℤ) + 1 by omega]
    have h3 : (List.range xs.length).filterMap (jobLookup (x :: xs) ∘ fun i : ℕ => (i : ℤ) + 2) =
        (List.range xs.length).filterMap (jobLookup xs ∘ fun i : ℕ => (i : ℤ) + 1) := by
      apply List.filterMap_congr
      intro i _
      simp only [Function.comp_apply]
      exact h2 i
    show (jobIds (xs.length + 1)).filterMap (jobLookup (x :: xs)) = _
    rw [h0, List.filterMap_cons, h1]
    dsimp only
    rw [List.filterMap_map, h3, ← List.filterMap_map, List.map_cons]
    exact congrArg (List.cons x.id) (ih (fun s hs => hne s (List.mem_cons_of_mem _ hs)))

/-- Filtering by a predicate on the id commutes with projecting the id. -/
lemma map_filter_comm (l : List RStop) (p : String → Bool) :
    (l.filter (fun s => p s.id)).map RStop.id = (l.map RStop.id).filter p := by
  induction l with
  | nil => rfl
  | cons s rest ih =>
    by_cases h : p s.id
    · simp [List.filter_cons, h, ih]
    · simp [List.filter_cons, h, ih]

/-- The ids of the job list are the resolved ids with the destination
filtered out. -/
lemma jobsListOf_map_id (l : List RStop) (d : String) :
    (jobsListOf l d).map RStop.id = (l.map RStop.id).filter (fun x => x ≠ d) := by
  simpa [jobsListOf] using map_filter_comm l (fun x => decide (x ≠ d))

/-- Filtering out an element not in the list changes nothing. -/
lemma filter_ne_of_not_mem (xs : List String) (d : String) (h : d ∉ xs) :
    xs.filter (fun x => x ≠ d) = xs := by
  refine List.filter_eq_self.mpr ?_
  intro a ha
  have hne : a ≠ d := fun he => h (he ▸ ha)
  simp [hne]

/-- For a duplicate-free list containing d, moving d from its position
to the end is a permutation. -/
lemma filter_ne_append_perm :
    ∀ (ids : List String) (d : String), ids.Nodup → d ∈ ids →
      (ids.filter (fun x => x ≠ d) ++ [d]).Perm ids := by
  intro ids
  induction ids with
  | nil => intro d _ hmem; cases hmem
  | cons x xs ih =>
    intro d hd hmem
    have hnd := List.nodup_cons.mp hd
    rcases List.mem_cons.mp hmem with he | hm
    · subst he
      simp only [List.filter_cons]
      rw [if_neg (by simp)]
      rw [filter_ne_of_not_mem xs d hnd.1]
      exact List.perm_append_singleton d xs
    · have hxd : x ≠ d := fun he => hnd.1 (he ▸ hm)
      simp only [List.filter_cons]
      rw [if_pos (by simp [hxd])]
      simp only [List.cons_append]
      exact List.Perm.cons x (ih d hnd.2 hm)

/-- orderedIntermediate splits into the numeric job extraction followed
by the table lookup. -/
lemma orderedIntermediate_eq (jobs : List RStop) (steps : List SStep) :
    orderedIntermediate jobs steps =
      (steps.filterMap SStep.job).filterMap (jobLookup jobs) := by
  rw [List.filterMap_filterMap]
  rfl

end PipelineLemmas

section Inversion

/-- Any response of POST whose body is not an error body comes from the
success pipeline: resolved origin, fully resolved stops, a suggested
destination, and then either the preview assembly or the final phase. -/
lemma POST_ok_inv (hav : Geo → Geo → ℚ) (env : Env) (cache : Cache) (body : ReqBody)
    (r : ApiResponse) (h : POST hav env cache body = r)
    (hnf : ∀ e, r.body ≠ ApiBody.fail e) :
    ∃ start src base cache' suggested,
      resolveStart hav env body = .resolved start src ∧
      resolveStopsSeq hav env body.stops start cache = .ok (base, cache') ∧
      pickFarthest (resolvedOf env start base) = some suggested ∧
      ((body.previewOnly = some true ∧
          r = previewAssemble start src (resolvedOf env start base) suggested) ∨
        (¬ body.previewOnly = some true ∧
          finalPhase env body start src (resolvedOf env start base) suggested = .ok r)) := by
  unfold POST at h
  split at h
  · rename_i r0 heq
    subst h
    unfold POSTtry at heq
    split at heq
    · cases heq; exact absurd rfl (hnf _)
    · split at heq
      · cases heq; exact absurd rfl (hnf _)
      · split at heq
        · cases heq; exact absurd rfl (hnf _)
        · split at heq
          · cases heq; exact absurd rfl (hnf _)
          · cases heq
          · rename_i start src hstart
            simp only [afterStart] at heq
            split at heq
            · cases heq
            · rename_i base cache' hres
              split at heq
              · cases heq
              · rename_i suggested hpick
                split at heq
                · rename_i hprev
                  cases heq
                  exact ⟨start, src, base, cache', suggested, hstart, hres, hpick,
                    Or.inl ⟨hprev, rfl⟩⟩
                · rename_i hprev
                  exact ⟨start, src, base, cache', suggested, hstart, hres, hpick,
                    Or.inr ⟨hprev, heq⟩⟩
  · rename_i e heq
    subst h
    exact absurd rfl (hnf _)

/-- A final-mode success of the final phase determines every field of
the response from the destination choice, the job list and the solver
response. -/
lemma finalPhase_inv (env : Env) (body : ReqBody) (start : Geo) (src : String)
    (resolved : List RStop) (suggested : RStop) (st : ℕ) (f : FinalBody)
    (h : finalPhase env body start src resolved suggested =
      .ok { status := st, body := .final f }) :
    ∃ destStop hh,
      resolved.find? (fun s => s.id = destIdOf body resolved suggested) = some destStop ∧
      env.solver (solverJobsOf (jobsListOf resolved (destIdOf body resolved suggested)))
        start destStop.geo = .ok hh ∧
      hh.ok = true ∧ st = 200 ∧
      f = { orderedIds :=
              orderedIntermediate (jobsListOf resolved (destIdOf body resolved suggested))
                ((hh.routes.head?.map SRoute.steps).getD []) ++
                [destIdOf body resolved suggested],
            destinationId := destIdOf body resolved suggested,
            note := "Optimized route",
            routeDistance_m := hh.routes.head?.bind SRoute.distance,
            routeDuration_s := hh.routes.head?.bind SRoute.duration,
            startUsed := (start, src),
            resolvedStops := resolved.map (fun s =>
              { id := s.id, lat := s.geo.lat, lon := s.geo.lon,
                pickedFrom := s.pickedFrom }) } := by
  simp only [finalPhase] at h
  split at h
  · cases h
  · rename_i destStop hfind
    split at h
    · cases h
    · rename_i hh hsolve
      split at h
      · cases h
      · rename_i hok
        cases h
        refine ⟨destStop, hh, hfind, hsolve, ?_, rfl, rfl⟩
        cases hb : hh.ok
        · exact absurd hb hok
        · rfl

/-- The final phase never produces a preview-shaped body. -/
lemma finalPhase_not_preview (env : Env) (body : ReqBody) (start : Geo) (src : String)
    (resolved : List RStop) (suggested : RStop) (r : ApiResponse)
    (h : finalPhase env body start src resolved suggested = .ok r) :
    ∀ p, r.body ≠ .preview p := by
  simp only [finalPhase] at h
  split at h
  · cases h
  · split at h
    · cases h
    · split at h
      · cases h
        intro p hcon
        cases hcon
      · cases h
        intro p hcon
        cases hcon

end Inversion

section StatusCodes

/-- C2 (amended).  Status codes of POST: 500 for a missing credential,
400 for no stops or no origin, 500 (through the catch-all) for any
thrown error, which includes every geocoder failure, and 502 only for a
non-success response of the optimization solver. -/
theorem post_status_codes (hav : Geo → Geo → ℚ) (env : Env) (cache : Cache) (body : ReqBody) :
    (env.orsKey = false → POST hav env cache body = errResp 500 "Missing ORS_API_KEY") ∧
    (env.orsKey = true → env.googleKey = false →
      POST hav env cache body = errResp 500 "Missing GOOGLE_PLACES_API_KEY") ∧
    (env.orsKey = true → env.googleKey = true → body.stops = [] →
      POST hav env cache body =
        { status := 400, body := .fail { note := "No stops provided", orderedIds := some [] } }) ∧
    (env.orsKey = true → env.googleKey = true → body.stops ≠ [] →
      resolveStart hav env body = .missing →
      POST hav env cache body = errResp 400 "Missing start (coords or zip)") ∧
    (∀ e, env.orsKey = true → env.googleKey = true → body.stops ≠ [] →
      resolveStart hav env body = .failed e →
      POST hav env cache body = errResp 500 (errNote e)) ∧
    (∀ e, POSTtry hav env cache body = .error e →
      POST hav env cache body = errResp 500 (errNote e)) ∧
    (∀ start src resolved suggested destStop hh,
      resolved.find? (fun s => s.id = destIdOf body resolved suggested) = some destStop →
      env.solver (solverJobsOf (jobsListOf resolved (destIdOf body resolved suggested)))
        start destStop.geo = .ok hh →
      hh.ok = false →
      finalPhase env body start src resolved suggested =
        .ok (errResp 502 ("ORS optimization failed (" ++ toString hh.status ++ "): " ++ hh.text))) := by
  have hcatch : ∀ e, POSTtry hav env cache body = .error e →
      POST hav env cache body = errResp 500 (errNote e) := by
    intro e he
    unfold POST
    rw [he]
  refine ⟨?_, ?_, ?_, ?_, ?_, hcatch, ?_⟩
  · intro h
    unfold POST POSTtry
    rw [h]
    rfl
  · intro h1 h2
    unfold POST POSTtry
    rw [h1, h2]
    rfl
  · intro h1 h2 h3
    unfold POST POSTtry
    rw [h1, h2, h3]
    rfl
  · intro h1 h2 h3 h4
    unfold POST POSTtry
    rw [h1, h2]
    cases hb : body.stops with
    | nil => exact absurd hb h3
    | cons s0 srest =>
      dsimp only
      rw [h4]
      rfl
  · intro e h1 h2 h3 h4
    apply hcatch
    unfold POSTtry
    rw [h1, h2]
    cases hb : body.stops with
    | nil => exact absurd hb h3
    | cons s0 srest =>
      dsimp only
      rw [h4]
      rfl
  · intro start src resolved suggested destStop hh hfind hsolve hok
    simp only [finalPhase]
    rw [hfind]
    dsimp only
    rw [hsolve]
    dsimp only
    rw [hok]
    rfl

/-- C2 (counterexample).  A request whose origin geocoding call answers
a non-success upstream status is answered with status 500 through the
catch-all, not 502: the geocoder in envGeoFail answers every call with
HTTP status 404 and the response of POST carries status 500. -/
theorem post_geocoder_failure_is_500 :
    POST hav0 envGeoFail [] bodyZip = errResp 500 "Geocode failed (404)" ∧
    (POST hav0 envGeoFail [] bodyZip).status ≠ 502 := by
  constructor
  · decide
  · decide

/-- Witness for the amended status-code theorem at concrete inputs. -/
theorem post_status_codes_witness :
    POST hav0 envNoOrs [] bodyAB = errResp 500 "Missing ORS_API_KEY" ∧
    POST hav0 envNoGoogle [] bodyAB = errResp 500 "Missing GOOGLE_PLACES_API_KEY" ∧
    POST hav0 envBase [] bodyNoStops =
      { status := 400, body := .fail { note := "No stops provided", orderedIds := some [] } } ∧
    POST hav0 envBase [] bodyNoStart = errResp 400 "Missing start (coords or zip)" ∧
    POST hav0 envGeoFail [] bodyZip = errResp 500 (errNote (.err "Geocode failed (404)")) := by
  refine ⟨?_, ?_, ?_, ?_, ?_⟩
  · exact (post_status_codes hav0 envNoOrs [] bodyAB).1 (by decide)
  · exact (post_status_codes hav0 envNoGoogle [] bodyAB).2.1 (by decide) (by decide)
  · exact (post_status_codes hav0 envBase [] bodyNoStops).2.2.1 (by decide) (by decide) (by decide)
  · exact (post_status_codes hav0 envBase [] bodyNoStart).2.2.2.1 (by decide) (by decide)
      (by decide) (by decide)
  · exact (post_status_codes hav0 envGeoFail [] bodyZip).2.2.2.2.1
      (.err "Geocode failed (404)") (by decide) (by decide) (by decide) (by decide)

end StatusCodes

section AtomicResolution

/-- C4.  A successful response, final or preview, reports exactly one
resolved stop per input stop, with the ids in input order; any stop
resolution failure aborts the whole request, so no partial stop list
ever surfaces. -/
theorem post_resolved_stops_complete (hav : Geo → Geo → ℚ) (env : Env) (cache : Cache)
    (body : ReqBody) (r : ApiResponse) (h : POST hav env cache body = r) :
    (∀ st f, r = { status := st, body := .final f } →
      f.resolvedStops.length = body.stops.length ∧
      f.resolvedStops.map RespStop.id = body.stops.map StopRequest.id) ∧
    (∀ st p, r = { status := st, body := .preview p } →
      p.stops.length = body.stops.length ∧
      p.stops.map PrevStop.id = body.stops.map StopRequest.id) := by
  constructor
  · intro st f hr
    subst hr
    obtain ⟨start, src, base, cache', suggested, hstart, hres, hpick, hdisj⟩ :=
      POST_ok_inv hav env cache body _ h (by intro e hcon; cases hcon)
    have hid : (resolvedOf env start base).map RStop.id = body.stops.map StopRequest.id := by
      rw [resolvedOf_map_id]
      exact resolveStopsSeq_ids hav env body.stops start cache base cache' hres
    rcases hdisj with ⟨_, hprev⟩ | ⟨_, hfin⟩
    · cases hprev
    · obtain ⟨destStop, hh, _, _, _, _, hf⟩ :=
        finalPhase_inv env body start src (resolvedOf env start base) suggested st f hfin
      subst hf
      constructor
      · simp only [List.length_map]
        have := congrArg List.length hid
        simpa using this
      · rw [List.map_map]
        exact hid
  · intro st p hr
    subst hr
    obtain ⟨start, src, base, cache', suggested, hstart, hres, hpick, hdisj⟩ :=
      POST_ok_inv hav env cache body _ h (by intro e hcon; cases hcon)
    have hid : (resolvedOf env start base).map RStop.id = body.stops.map StopRequest.id := by
      rw [resolvedOf_map_id]
      exact resolveStopsSeq_ids hav env body.stops start cache base cache' hres
    rcases hdisj with ⟨_, hprev⟩ | ⟨_, hfin⟩
    · cases hprev
      constructor
      · simp only [previewAssemble, List.length_map]
        have := congrArg List.length hid
        simpa using this
      · simp only [previewAssemble, List.map_map]
        exact hid
    · exact absurd rfl
        (finalPhase_not_preview env body start src (resolvedOf env start base) suggested _ hfin p)

/-- Witness for C4 at a concrete final-mode request. -/
theorem post_resolved_stops_complete_witness :
    fAB.resolvedStops.length = bodyAB.stops.length ∧
    fAB.resolvedStops.map RespStop.id = bodyAB.stops.map StopRequest.id :=
  (post_resolved_stops_complete havLat envBase [] bodyAB
    (POST havLat envBase [] bodyAB) rfl).1 200 fAB (by decide)

end AtomicResolution

section DestinationOverride

/-- C3 (amended).  When the supplied destinationId, after trimming,
is non-empty and equals the id of one of the stops, the final-mode
response uses that trimmed value as its destinationId. -/
theorem post_destination_override (hav : Geo → Geo → ℚ) (env : Env) (cache : Cache)
    (body : ReqBody) (st : ℕ) (f : FinalBody)
    (h : POST hav env cache body = { status := st, body := .final f })
    (hne : jsTrim (body.destinationId.getD "") ≠ "")
    (hmem : jsTrim (body.destinationId.getD "") ∈ body.stops.map StopRequest.id) :
    f.destinationId = jsTrim (body.destinationId.getD "") := by
  obtain ⟨start, src, base, cache', suggested, hstart, hres, hpick, hdisj⟩ :=
    POST_ok_inv hav env cache body _ h (by intro e hcon; cases hcon)
  rcases hdisj with ⟨_, hprev⟩ | ⟨_, hfin⟩
  · cases hprev
  · obtain ⟨destStop, hh, hfind, hsolve, hhok, hst, hf⟩ :=
      finalPhase_inv env body start src (resolvedOf env start base) suggested st f hfin
    have hid : (resolvedOf env start base).map RStop.id = body.stops.map StopRequest.id := by
      rw [resolvedOf_map_id]
      exact resolveStopsSeq_ids hav env body.stops start cache base cache' hres
    have hany : (resolvedOf env start base).any
        (fun s => s.id = jsTrim (body.destinationId.getD "")) = true := by
      rw [List.any_eq_true]
      rw [← hid] at hmem
      obtain ⟨sx, hsx, hsid⟩ := List.mem_map.mp hmem
      exact ⟨sx, hsx, by simp [hsid]⟩
    have hdest : destIdOf body (resolvedOf env start base) suggested =
        jsTrim (body.destinationId.getD "") := by
      simp only [destIdOf]
      rw [if_pos ⟨hne, hany⟩]
    rw [hf]
    exact hdest

/-- C3 (counterexample).  A caller-supplied destinationId that equals a
stop id exactly but carries surrounding whitespace is trimmed before the
override check; the lookup misses and the response destination falls
back to the suggested stop instead of the supplied value. -/
theorem post_destination_override_cex :
    POST havLat envBase [] bodyTrim = { status := 200, body := .final fTrim } ∧
    bodyTrim.destinationId = some " a " ∧
    " a " ∈ bodyTrim.stops.map StopRequest.id ∧
    fTrim.destinationId ≠ " a " := by
  refine ⟨by decide, by decide, by decide, by decide⟩

/-- Witness for the amended destination-override theorem. -/
theorem post_destination_override_witness :
    fDestA.destinationId = jsTrim (bodyDestA.destinationId.getD "") :=
  post_destination_override havLat envBase [] bodyDestA 200 fDestA
    (by decide) (by decide) (by decide)

end DestinationOverride

section SelectorWitness

/-- Witness for C5 at a concrete two-stop list: the driving-ranked stop
wins over the straight-line-ranked one. -/
theorem pickFarthest_spec_witness :
    wStopB ∈ [wStopA, wStopB] ∧
    (∀ r ∈ [wStopA, wStopB], rank r ≤ rank wStopB) ∧
    ∃ i, ∃ hi : i < ([wStopA, wStopB] : List RStop).length,
      ([wStopA, wStopB] : List RStop).get ⟨i, hi⟩ = wStopB ∧
      ∀ j, ∀ hj : j < i,
        rank (([wStopA, wStopB] : List RStop).get ⟨j, Nat.lt_trans hj hi⟩) < rank wStopB :=
  pickFarthest_spec [wStopA, wStopB] wStopB (by decide)

end SelectorWitness

section OrderedIds

/-- C1 (amended).  For a successful final-mode response, orderedIds is
the solver-ordered job walk followed by the destination; whenever the
stop ids are duplicate-free, none of them is the empty string, and the
solver references each assigned job id exactly once, orderedIds is a
permutation of the input stop ids whose last element is destinationId,
occurring exactly once. -/
theorem post_orderedIds_perm (hav : Geo → Geo → ℚ) (env : Env) (cache : Cache)
    (body : ReqBody) (st : ℕ) (f : FinalBody)
    (h : POST hav env cache body = { status := st, body := .final f })
    (hnd : (body.stops.map StopRequest.id).Nodup)
    (hne : "" ∉ body.stops.map StopRequest.id)
    (hsolver : ∀ jobs vs ve hh, env.solver jobs vs ve = .ok hh → hh.ok = true →
      ((((hh.routes.head?.map SRoute.steps).getD []).filterMap SStep.job)).Perm
        (jobIds jobs.length)) :
    f.orderedIds.Perm (body.stops.map StopRequest.id) ∧
    f.orderedIds.getLast? = some f.destinationId ∧
    f.orderedIds.count f.destinationId = 1 := by
  obtain ⟨start, src, base, cache', suggested, hstart, hres, hpick, hdisj⟩ :=
    POST_ok_inv hav env cache body _ h (by intro e hcon; cases hcon)
  rcases hdisj with ⟨_, hprev⟩ | ⟨_, hfin⟩
  · cases hprev
  · obtain ⟨destStop, hh, hfind, hsolve, hhok, hst, hf⟩ :=
      finalPhase_inv env body start src (resolvedOf env start base) suggested st f hfin
    have hid : (resolvedOf env start base).map RStop.id = body.stops.map StopRequest.id := by
      rw [resolvedOf_map_id]
      exact resolveStopsSeq_ids hav env body.stops start cache base cache' hres
    have hndr : ((resolvedOf env start base).map RStop.id).Nodup := by
      rw [hid]; exact hnd
    have hner : ∀ s2 ∈ resolvedOf env start base, s2.id ≠ "" := by
      intro s2 hs2 hemp
      apply hne
      rw [← hid]
      exact hemp ▸ List.mem_map_of_mem RStop.id hs2
    have hdid : destStop.id = destIdOf body (resolvedOf env start base) suggested := by
      have h0 := List.find?_some hfind
      simpa using h0
    have hdmem : destIdOf body (resolvedOf env start base) suggested ∈
        (resolvedOf env start base).map RStop.id := by
      rw [← hdid]
      exact List.mem_map_of_mem RStop.id (List.mem_of_find?_eq_some hfind)
    have hlenjobs : (solverJobsOf (jobsListOf (resolvedOf env start base)
        (destIdOf body (resolvedOf env start base) suggested))).length =
        (jobsListOf (resolvedOf env start base)
          (destIdOf body (resolvedOf env start base) suggested)).length := by
      simp [solverJobsOf]
    have hperm0 := hsolver _ _ _ _ hsolve hhok
    rw [hlenjobs] at hperm0
    have hLne : ∀ s2 ∈ jobsListOf (resolvedOf env start base)
        (destIdOf body (resolvedOf env start base) suggested), s2.id ≠ "" := by
      intro s2 hs2
      apply hner
      simp only [jobsListOf] at hs2
      exact List.mem_of_mem_filter hs2
    have hOI : (orderedIntermediate (jobsListOf (resolvedOf env start base)
        (destIdOf body (resolvedOf env start base) suggested))
        ((hh.routes.head?.map SRoute.steps).getD [])).Perm
        ((jobsListOf (resolvedOf env start base)
          (destIdOf body (resolvedOf env start base) suggested)).map RStop.id) := by
      rw [orderedIntermediate_eq]
      have h1 := hperm0.filterMap (jobLookup (jobsListOf (resolvedOf env start base)
        (destIdOf body (resolvedOf env start base) suggested)))
      rw [jobIds_filterMap _ hLne] at h1
      exact h1
    have hfull : ((orderedIntermediate (jobsListOf (resolvedOf env start base)
        (destIdOf body (resolvedOf env start base) suggested))
        ((hh.routes.head?.map SRoute.steps).getD []) ++
        [destIdOf body (resolvedOf env start base) suggested])).Perm
        ((resolvedOf env start base).map RStop.id) := by
      have h2 := hOI.append_right [destIdOf body (resolvedOf env start base) suggested]
      rw [jobsListOf_map_id] at h2
      exact h2.trans (filter_ne_append_perm _ _ hndr hdmem)
    subst hf
    refine ⟨?_, ?_, ?_⟩
    · rw [← hid]
      exact hfull
    · exact List.getLast?_concat _
    · rw [hfull.count_eq]
      exact List.count_eq_one_of_mem hndr hdmem

/-- C1 (counterexample).  A solver success whose response contains no
routes at all still yields a successful final-mode response, but its
orderedIds is only the destination and is not a permutation of the two
input stop ids. -/
theorem post_orderedIds_perm_cex :
    POST havLat envEmptyRoutes [] bodyAB = { status := 200, body := .final fEmpty } ∧
    ¬ (fEmpty.orderedIds.Perm (bodyAB.stops.map StopRequest.id)) := by
  constructor
  · decide
  · intro hp
    exact absurd hp.length_eq (by decide)

/-- The well-behaved solver of envBase satisfies the solver-contract
hypothesis: it visits all assigned jobs in id order. -/
lemma envBase_solver_contract :
    ∀ jobs vs ve hh, envBase.solver jobs vs ve = .ok hh → hh.ok = true →
      ((((hh.routes.head?.map SRoute.steps).getD []).filterMap SStep.job)).Perm
        (jobIds jobs.length) := by
  intro jobs vs ve hh hok _
  cases hok
  simp only [solverOkResp]
  dsimp only [List.head?, Option.map, Option.getD]
  rw [List.filterMap_map]
  have hcomp : ((fun st => st.job) ∘ fun j => ({ job := some j } : SStep)) = some := rfl
  rw [hcomp, List.filterMap_some]

/-- Witness for the amended orderedIds theorem at a concrete request. -/
theorem post_orderedIds_perm_witness :
    fAB.orderedIds.Perm (bodyAB.stops.map StopRequest.id) ∧
    fAB.orderedIds.getLast? = some fAB.destinationId ∧
    fAB.orderedIds.count fAB.destinationId = 1 :=
  post_orderedIds_perm havLat envBase [] bodyAB 200 fAB (by decide) (by decide) (by decide)
    envBase_solver_contract

end OrderedIds

section MatrixFailure

/-- With both driving arrays null, every enriched stop lacks the
driving distance and the ETA. -/
lemma mkResolvedList_none :
    ∀ (base : List RStopBase) (i : ℕ) (r : RStop),
      r ∈ mkResolvedList none none base i → r.drive_mi = none ∧ r.eta_min = none := by
  intro base
  induction base with
  | nil => intro i r hr; cases hr
  | cons b rest ih =>
    intro i r hr
    rcases List.mem_cons.mp hr with he | hm
    · subst he
      exact ⟨rfl, rfl⟩
    · exact ih (i + 1) r hm

/-- The destination lookup always succeeds: the override branch demands
a matching stop and the fallback is the suggested stop itself. -/
lemma find?_dest (resolved : List RStop) (body : ReqBody) (suggested : RStop)
    (hmem : suggested ∈ resolved) :
    ∃ d, resolved.find? (fun s => s.id = destIdOf body resolved suggested) = some d := by
  have hex : ∃ x, x ∈ resolved ∧
      (fun s => decide (s.id = destIdOf body resolved suggested)) x = true := by
    by_cases hc : jsTrim (body.destinationId.getD "") ≠ "" ∧
        (resolved.any (fun s => s.id = jsTrim (body.destinationId.getD "")) : Prop)
    · have hd : destIdOf body resolved suggested = jsTrim (body.destinationId.getD "") := by
        simp only [destIdOf]
        rw [if_pos hc]
      obtain ⟨x, hx, hpx⟩ := List.any_eq_true.mp hc.2
      refine ⟨x, hx, ?_⟩
      rw [hd]
      exact hpx
    · have hd : destIdOf body resolved suggested = suggested.id := by
        simp only [destIdOf]
        rw [if_neg hc]
      refine ⟨suggested, hmem, ?_⟩
      rw [hd]
      simp
  obtain ⟨d, hd⟩ := Option.isSome_iff_exists.mp (List.find?_isSome.mpr hex)
  exact ⟨d, hd⟩

/-- C6.  When every distance-matrix attempt fails, the request still
succeeds in both modes provided nothing else fails: the response body is
never an error body, every resolved stop lacks drivingDistance and
etaMinutes, and the suggested destination maximizes the straight-line
distance, to which the ranking falls back. -/
theorem matrix_failure_nonfatal (hav : Geo → Geo → ℚ) (env : Env) (cache : Cache)
    (body : ReqBody) (g : Geo) (src : String) (base : List RStopBase) (cache' : Cache)
    (hm : ∀ st2 gs, ∃ e, matrixFromStart env st2 gs = .error e)
    (hko : env.orsKey = true) (hkg : env.googleKey = true)
    (hstops : body.stops ≠ [])
    (hstart : resolveStart hav env body = .resolved g src)
    (hres : resolveStopsSeq hav env body.stops g cache = .ok (base, cache'))
    (hsolve : ∀ jobs vs ve, ∃ hh, env.solver jobs vs ve = .ok hh ∧ hh.ok = true) :
    (∀ e2, (POST hav env cache body).body ≠ .fail e2) ∧
    (∀ r ∈ resolvedOf env g base, r.drive_mi = none ∧ r.eta_min = none) ∧
    (∀ p, pickFarthest (resolvedOf env g base) = some p →
      ∀ r ∈ resolvedOf env g base, r.dist_mi ≤ p.dist_mi) := by
  have hms : matrixStep env g (base.map RStopBase.geo) = (none, none) := by
    obtain ⟨e, he⟩ := hm g (base.map RStopBase.geo)
    unfold matrixStep
    rw [he]
  have hresolved : resolvedOf env g base = mkResolvedList none none base 0 := by
    unfold resolvedOf
    rw [hms]
  have hnone : ∀ r ∈ resolvedOf env g base, r.drive_mi = none ∧ r.eta_min = none := by
    intro r hr
    rw [hresolved] at hr
    exact mkResolvedList_none base 0 r hr
  have hfallback : ∀ p, pickFarthest (resolvedOf env g base) = some p →
      ∀ r ∈ resolvedOf env g base, r.dist_mi ≤ p.dist_mi := by
    intro p hp r hr
    obtain ⟨hpm, hall, _⟩ := pickFarthest_max _ p hp
    have h1 := hall r hr
    rw [rank, rank, (hnone r hr).1, (hnone p hpm).1] at h1
    exact h1
  refine ⟨?_, hnone, hfallback⟩
  have h1 : POSTtry hav env cache body = afterStart hav env cache body g src := by
    unfold POSTtry
    rw [hko, hkg]
    cases hb : body.stops with
    | nil => exact absurd hb hstops
    | cons s0 srest =>
      rw [hstart]
      rfl
  have hbasene : base ≠ [] := by
    intro hb0
    have hids := resolveStopsSeq_ids hav env body.stops g cache base cache' hres
    rw [hb0] at hids
    exact hstops (List.map_eq_nil_iff.mp hids.symm)
  obtain ⟨r0, rs, hr0⟩ : ∃ r0 rs, resolvedOf env g base = r0 :: rs := by
    cases hrr : resolvedOf env g base with
    | nil =>
      exfalso
      have hl : (resolvedOf env g base).length = base.length :=
        mkResolvedList_length _ _ base 0
      rw [hrr] at hl
      exact hbasene (List.length_eq_zero.mp hl.symm)
    | cons a l => exact ⟨a, l, rfl⟩
  have hpick : pickFarthest (resolvedOf env g base) =
      some ((r0 :: rs).foldl pickStep r0) := by
    rw [hr0]
    rfl
  have hsugmem : (r0 :: rs).foldl pickStep r0 ∈ resolvedOf env g base :=
    (pickFarthest_max _ _ hpick).1
  have h2 : afterStart hav env cache body g src =
      (if body.previewOnly = some true then
        .ok (previewAssemble g src (resolvedOf env g base) ((r0 :: rs).foldl pickStep r0))
      else finalPhase env body g src (resolvedOf env g base) ((r0 :: rs).foldl pickStep r0)) := by
    simp only [afterStart]
    rw [hres]
    dsimp only
    rw [hpick]
  by_cases hpv : body.previewOnly = some true
  · intro e2
    unfold POST
    rw [h1, h2, if_pos hpv]
    intro hcon
    cases hcon
  · obtain ⟨dstop, hfindd⟩ :=
      find?_dest (resolvedOf env g base) body ((r0 :: rs).foldl pickStep r0) hsugmem
    obtain ⟨hh, hsol, hok⟩ := hsolve
      (solverJobsOf (jobsListOf (resolvedOf env g base)
        (destIdOf body (resolvedOf env g base) ((r0 :: rs).foldl pickStep r0))))
      g dstop.geo
    have h3 : finalPhase env body g src (resolvedOf env g base)
        ((r0 :: rs).foldl pickStep r0) =
        .ok { status := 200, body := .final {
          orderedIds := orderedIntermediate (jobsListOf (resolvedOf env g base)
              (destIdOf body (resolvedOf env g base) ((r0 :: rs).foldl pickStep r0)))
              ((hh.routes.head?.map SRoute.steps).getD []) ++
            [destIdOf body (resolvedOf env g base) ((r0 :: rs).foldl pickStep r0)],
          destinationId := destIdOf body (resolvedOf env g base) ((r0 :: rs).foldl pickStep r0),
          note := "Optimized route",
          routeDistance_m := hh.routes.head?.bind SRoute.distance,
          routeDuration_s := hh.routes.head?.bind SRoute.duration,
          startUsed := (g, src),
          resolvedStops := (resolvedOf env g base).map (fun s =>
            { id := s.id, lat := s.geo.lat, lon := s.geo.lon, pickedFrom := s.pickedFrom }) } } := by
      simp only [finalPhase]
      rw [hfindd]
      dsimp only
      rw [hsol]
      dsimp only
      rw [hok]
      rfl
    intro e2
    unfold POST
    rw [h1, h2, if_neg hpv, h3]
    intro hcon
    cases hcon

/-- Witness for the matrix-failure theorem at a concrete request whose
matrix call always rejects. -/
theorem matrix_failure_nonfatal_witness :
    (∀ e2, (POST havLat envBase [] bodyAB).body ≠ .fail e2) ∧
    (∀ r ∈ resolvedOf envBase gStart baseAB, r.drive_mi = none ∧ r.eta_min = none) ∧
    (∀ p, pickFarthest (resolvedOf envBase gStart baseAB) = some p →
      ∀ r ∈ resolvedOf envBase gStart baseAB, r.dist_mi ≤ p.dist_mi) :=
  matrix_failure_nonfatal havLat envBase [] bodyAB gStart "gps" baseAB []
    (fun st2 gs => ⟨.abort, rfl⟩) rfl rfl (by decide) (by decide) (by rfl)
    (fun jobs vs ve => ⟨solverOkResp jobs.length, rfl, rfl⟩)

end MatrixFailure

section GeoCache

/-- Both success paths of the network phases write exactly one cache
binding, keyed as requested, stamped with the call time, holding the
returned coordinate; and they make at most two network calls. -/
lemma placesFetch_cache (hav : Geo → Geo → ℚ) (env : Env) (cache : Cache)
    (key : String × (Bool × ℤ) × (Bool × ℤ)) (start : Geo) (name : String)
    (g : Geo) (c : Cache) (n : ℕ)
    (h : placesNearestByName.placesFetch hav env cache key start name = (.ok g, c, n)) :
    c = cacheSet cache key { storedAt := env.now, geo := g } ∧ n ≤ 2 := by
  simp only [placesNearestByName.placesFetch] at h
  rcases hp1 : env.places1 start name with e1 | h1 <;> rw [hp1] at h
  · cases h
  · dsimp only at h
    by_cases hok1 : h1.ok = false
    · rw [if_pos hok1] at h
      cases h
    · rw [if_neg hok1] at h
      rcases hpick1 : pickFirst (List.filter (isGoodMatch (jsToLower name)) h1.results)
          with _ | got1 <;> rw [hpick1] at h
      · rcases hp2 : env.places2 start name with e2 | h2 <;> rw [hp2] at h
        · cases h
        · dsimp only at h
          by_cases hok2 : h2.ok = false
          · rw [if_pos hok2] at h
            cases h
          · rw [if_neg hok2] at h
            by_cases hemp : (List.filter (isGoodMatch (jsToLower name)) h2.results).isEmpty = true
            · rw [if_pos hemp] at h
              cases h
            · rw [if_neg hemp] at h
              rcases hpick2 : pickFirst (stableSort (placesLe hav start)
                  (List.filter (isGoodMatch (jsToLower name)) h2.results)) with _ | got2 <;>
                rw [hpick2] at h
              · cases h
              · cases h
                exact ⟨rfl, by omega⟩
      · cases h
        exact ⟨rfl, by omega⟩

/-- C7 (amended).  A brand resolution that misses the cache and
succeeds writes its coordinate under the grid-cell key; a second
resolution for the same brand from a reference point in the same grid
cell, within the TTL, returns that cached coordinate with no network
call; the first resolution itself makes at most two network calls. -/
theorem places_cache_hit (hav : Geo → Geo → ℚ) (env1 env2 : Env) (cache : Cache)
    (start1 start2 : Geo) (name : String) (g : Geo) (c1 : Cache) (n1 : ℕ)
    (hmiss : cacheGet cache (placesCacheKey name start1) = none)
    (h1 : placesNearestByName hav env1 cache start1 name = (.ok g, c1, n1))
    (hkey : placesCacheKey name start2 = placesCacheKey name start1)
    (hgk : env2.googleKey = true)
    (httl : env2.now - env1.now < PLACES_TTL_MS) :
    placesNearestByName hav env2 c1 start2 name = (.ok g, c1, 0) ∧ n1 ≤ 2 := by
  have hwrite : c1 = cacheSet cache (placesCacheKey name start1)
      { storedAt := env1.now, geo := g } ∧ n1 ≤ 2 := by
    simp only [placesNearestByName] at h1
    by_cases hg1 : env1.googleKey = false
    · rw [if_pos hg1] at h1
      cases h1
    · rw [if_neg hg1] at h1
      rw [hmiss] at h1
      exact placesFetch_cache hav env1 cache _ start1 name g c1 n1 h1
  refine ⟨?_, hwrite.2⟩
  simp only [placesNearestByName]
  rw [if_neg (by rw [hgk]; intro hcon; cases hcon)]
  rw [hkey, hwrite.1]
  have hget : cacheGet (cacheSet cache (placesCacheKey name start1)
      { storedAt := env1.now, geo := g }) (placesCacheKey name start1) =
      some { storedAt := env1.now, geo := g } := by
    simp [cacheGet, cacheSet, List.lookup]
  rw [hget]
  dsimp only
  rw [if_pos httl]

/-- C7 (counterexample).  The pair of resolutions can cost two network
calls, not one: the first resolution goes through both Places phases
(rank-by-distance finds no strict match, the radius phase does), so it
alone makes two calls; the second is a pure cache hit. -/
theorem places_cache_two_calls :
    placesNearestByName hav0 envPlaces [] pRef "Starbucks" =
      (.ok { lat := 3, lon := 3 }, cachePl, 2) ∧
    placesNearestByName hav0 envPlacesLater cachePl pRefNear "Starbucks" =
      (.ok { lat := 3, lon := 3 }, cachePl, 0) ∧
    ¬ (2 + 0 ≤ 1) := by
  refine ⟨by decide, by decide, by decide⟩

/-- Witness for the amended cache theorem at the concrete scenario. -/
theorem places_cache_hit_witness :
    placesNearestByName hav0 envPlacesLater cachePl pRefNear "Starbucks" =
      (.ok { lat := 3, lon := 3 }, cachePl, 0) ∧ 2 ≤ 2 :=
  places_cache_hit hav0 envPlaces envPlacesLater [] pRef pRefNear "Starbucks"
    { lat := 3, lon := 3 } cachePl 2 (by decide) (by decide) (by decide) rfl (by decide)

end GeoCache

section OriginBoundary

/-- Every coordinate in the accumulator output of one pass comes from
the previous accumulator or from a feature of that pass. -/
lemma gcAcc_snd_mem (p : List ((Bool × ℤ) × (Bool × ℤ)) × List (ℚ × ℚ)) (f : Feature)
    (c : ℚ × ℚ) (hc : c ∈ (gcAcc p f).2) : c ∈ p.2 ∨ f.coords = some c := by
  simp only [gcAcc] at hc
  rcases hfc : f.coords with _ | c0 <;> rw [hfc] at hc
  · exact Or.inl hc
  · dsimp only at hc
    by_cases hcont : p.1.contains (fixedKey 5 c0.1, fixedKey 5 c0.2)
    · rw [if_pos hcont] at hc
      exact Or.inl hc
    · rw [if_neg hcont] at hc
      rcases List.mem_append.mp hc with h | h
      · exact Or.inl h
      · have h4 := List.mem_singleton.mp h
        subst h4
        exact Or.inr rfl

/-- Folding one pass over the accumulator only adds coordinates that
appear in the features of that pass. -/
lemma gcAcc_fold_mem :
    ∀ (feats : List Feature) (seen : List ((Bool × ℤ) × (Bool × ℤ))) (all : List (ℚ × ℚ))
      (c : ℚ × ℚ), c ∈ (feats.foldl gcAcc (seen, all)).2 →
      c ∈ all ∨ ∃ f ∈ feats, f.coords = some c := by
  intro feats
  induction feats with
  | nil => intro seen all c hc; exact Or.inl hc
  | cons f fs ih =>
    intro seen all c hc
    rw [List.foldl_cons] at hc
    rcases ih (gcAcc (seen, all) f).1 (gcAcc (seen, all) f).2 c hc with h | ⟨f2, hf2, hc2⟩
    · rcases gcAcc_snd_mem (seen, all) f c h with h2 | h2
      · exact Or.inl h2
      · exact Or.inr ⟨f, List.mem_cons_self _ _, h2⟩
    · exact Or.inr ⟨f2, List.mem_cons_of_mem _ hf2, hc2⟩

/-- A successful geocodeSearch returns exactly the features of a
successful underlying HTTP response. -/
lemma geocodeSearch_inv (env : Env) (query : String) (start : Geo) (radius size : ℕ)
    (feats : List Feature) (h : geocodeSearch env query start radius size = .ok feats) :
    ∃ hh, env.geocode query start radius size = .ok hh ∧ feats = hh.features := by
  unfold geocodeSearch at h
  split at h
  · cases h
  · rcases hg : env.geocode query start radius size with e | hh <;> rw [hg] at h
    · cases h
    · dsimp only at h
      by_cases hok : hh.ok = false
      · rw [if_pos hok] at h
        cases h
      · rw [if_neg hok] at h
        cases h
        exact ⟨hh, rfl, rfl⟩

/-- Against a boundary-respecting geocoder, every candidate accumulated
by the pass loop lies within 50 km of the reference point as long as
every requested radius is at most 50 km. -/
lemma gcLoop_within (hav : Geo → Geo → ℚ) (env : Env) (query : String) (start : Geo)
    (hb : respectsBoundary hav env) :
    ∀ (passes : List (ℕ × ℕ)) (seen : List ((Bool × ℤ) × (Bool × ℤ)))
      (all out : List (ℚ × ℚ)),
      (∀ p ∈ passes, p.1 ≤ 50000) →
      (∀ c ∈ all, hav start (geoOfPair c) ≤ 50000) →
      gcLoop env query start passes seen all = .ok out →
      ∀ c ∈ out, hav start (geoOfPair c) ≤ 50000 := by
  intro passes
  induction passes with
  | nil =>
    intro seen all out _ hall h c hc
    simp only [gcLoop] at h
    cases h
    exact hall c hc
  | cons p ps ih =>
    intro seen all out hpass hall h c hc
    obtain ⟨radius, size⟩ := p
    simp only [gcLoop] at h
    rcases hgs : geocodeSearch env query start radius size with e | feats <;> rw [hgs] at h
    · cases h
    · dsimp only at h
      have hfeat : ∀ f ∈ feats, ∀ pt, f.coords = some pt →
          hav start (geoOfPair pt) ≤ (radius : ℚ) := by
        obtain ⟨hh, hg, hfe⟩ := geocodeSearch_inv env query start radius size feats hgs
        intro f hf pt hpt
        exact hb query start radius size hh hg f (hfe ▸ hf) pt hpt
      have hacc : ∀ c2 ∈ (feats.foldl gcAcc (seen, all)).2,
          hav start (geoOfPair c2) ≤ 50000 := by
        intro c2 hc2
        rcases gcAcc_fold_mem feats seen all c2 hc2 with h1 | ⟨f, hf, hfc⟩
        · exact hall c2 h1
        · have h2 := hfeat f hf c2 hfc
          have hr : (radius : ℚ) ≤ 50000 := by
            have h3 := hpass (radius, size) (List.mem_cons_self _ _)
            exact_mod_cast h3
          exact le_trans h2 hr
      by_cases h15 : 15 ≤ (feats.foldl gcAcc (seen, all)).2.length
      · rw [if_pos h15] at h
        cases h
        exact hacc c hc
      · rw [if_neg h15] at h
        exact ih _ _ out (fun q2 hq2 => hpass q2 (List.mem_cons_of_mem _ hq2)) hacc h c hc

/-- A fold whose step keeps the accumulator or takes the scanned
element keeps its first component among the seed and the list. -/
lemma foldl_fst_mem {α β : Type} (step : (α × β) → α → (α × β))
    (hstep : ∀ acc c, (step acc c).1 = c ∨ (step acc c).1 = acc.1) :
    ∀ (l : List α) (acc : α × β), (l.foldl step acc).1 = acc.1 ∨ (l.foldl step acc).1 ∈ l := by
  intro l
  induction l with
  | nil => intro acc; exact Or.inl rfl
  | cons x xs ih =>
    intro acc
    rw [List.foldl_cons]
    rcases ih (step acc x) with h | h
    · rcases hstep acc x with h2 | h2
      · rw [h, h2]
        exact Or.inr (List.mem_cons_self _ _)
      · rw [h, h2]
        exact Or.inl rfl
    · exact Or.inr (List.mem_cons_of_mem _ h)

/-- The closest-candidate pick is the seed or one of the candidates. -/
lemma gcPick_mem (hav : Geo → Geo → ℚ) (start : Geo) (c0 : ℚ × ℚ) (all : List (ℚ × ℚ)) :
    gcPick hav start c0 all ∈ c0 :: all := by
  have hstep : ∀ acc c, (gcPickStep hav start acc c).1 = c ∨
      (gcPickStep hav start acc c).1 = acc.1 := by
    intro acc c
    simp only [gcPickStep]
    by_cases hcond : (match acc.2 with
      | none => true
      | some b => decide (hav start (geoOfPair c) < b)) = true
    · rw [if_pos hcond]
      exact Or.inl rfl
    · rw [if_neg hcond]
      exact Or.inr rfl
  rcases foldl_fst_mem (gcPickStep hav start) hstep all (c0, none) with h | h
  · rw [gcPick, h]
    exact List.mem_cons_self _ _
  · exact List.mem_cons_of_mem _ h

/-- Against a boundary-respecting geocoder, generic resolution succeeds
only with a returned candidate within 50 km of the reference point. -/
lemma geocodeClosest_within (hav : Geo → Geo → ℚ) (env : Env) (query : String)
    (start : Geo) (g : Geo) (hb : respectsBoundary hav env)
    (h : geocodeClosest hav env query start = .ok g) : hav start g ≤ 50000 := by
  unfold geocodeClosest at h
  rcases hl : gcLoop env query start gcPasses [] [] with e | all <;> rw [hl] at h
  · cases h
  · dsimp only at h
    cases hall : all with
    | nil =>
      rw [hall] at h
      cases h
    | cons c0 cs =>
      rw [hall] at h
      cases h
      have hmem0 := gcPick_mem hav start c0 (c0 :: cs)
      have hmem : gcPick hav start c0 (c0 :: cs) ∈ (c0 :: cs) := by
        rcases List.mem_cons.mp hmem0 with he | hm
        · rw [he]
          exact List.mem_cons_self _ _
        · exact hm
      have h50 := gcLoop_within hav env query start hb gcPasses [] [] all
        (by decide) (by intro c hc; cases hc) hl
      rw [hall] at h50
      exact h50 _ hmem

/-- C9.  An origin given only as free-text startQuery is geocoded with
" United States" appended to the trimmed query, around the fixed Las
Vegas seed, through the generic multi-pass resolution whose boundary
circles never exceed 50 km; so, whenever the geocoder honors the
requested boundary circles, such an origin resolves successfully only
to a candidate within 50 km of the Las Vegas seed. -/
theorem origin_from_query (hav : Geo → Geo → ℚ) (env : Env) (body : ReqBody) (q : String)
    (hq : body.startCoords = none) (hsq : body.startQuery = some q)
    (hnb : ¬ jsTrim q = "") (hb : respectsBoundary hav env) :
    ∀ g src, resolveStart hav env body = .resolved g src →
      src = "zip" ∧
      geocodeClosest hav env (jsTrim q ++ " United States") vegasSeed = .ok g ∧
      hav vegasSeed g ≤ 50000 := by
  intro g src h
  unfold resolveStart at h
  rw [hq, hsq] at h
  dsimp only at h
  rw [if_neg hnb] at h
  rcases hgc : geocodeClosest hav env (jsTrim q ++ " United States") vegasSeed
      with e | g0 <;> rw [hgc] at h
  · cases h
  · cases h
    exact ⟨rfl, rfl, geocodeClosest_within hav env _ vegasSeed _ hb hgc⟩

/-- The fixed-feature geocoder of envGeo9 trivially respects the
boundary circles under the trivial distance function. -/
lemma envGeo9_boundary : respectsBoundary hav0 envGeo9 := by
  intro q c radius size hh hg f hf p hp
  simp only [hav0]
  exact_mod_cast Nat.zero_le radius

/-- Witness for the origin theorem at a concrete padded free-text
start. -/
theorem origin_from_query_witness :
    "zip" = "zip" ∧
    geocodeClosest hav0 envGeo9 (jsTrim " 89109 " ++ " United States") vegasSeed =
      .ok { lat := 8, lon := 7 } ∧
    hav0 vegasSeed { lat := 8, lon := 7 } ≤ 50000 :=
  origin_from_query hav0 envGeo9 bodyZipPad " 89109 " rfl rfl (by decide)
    envGeo9_boundary { lat := 8, lon := 7 } "zip" (by decide)

end OriginBoundary

section PerElementEnrichment

/-- C10.  Even when the matrix call succeeds, enrichment is applied per
element: the idx-th stop carries a driving distance exactly when the
idx-th distance entry is a finite number, an ETA of max(1, round(sec/60))
minutes exactly when the idx-th duration entry is a finite number, a
present ETA is never below one minute, and the ranking distance used for
destination selection is the driving distance when present, else the
straight-line distance, so one request can mix both rankings. -/
theorem matrix_per_element (env : Env) (start : Geo) (base : List RStopBase)
    (ds ts : List (Option ℚ)) (idx : ℕ)
    (hm : matrixFromStart env start (base.map RStopBase.geo) = .ok (ds, ts))
    (hidx : idx < base.length) :
    ∃ b r, base.get? idx = some b ∧ (resolvedOf env start base).get? idx = some r ∧
      r.dist_mi = b.dist_mi ∧
      r.drive_mi = ((ds.get? idx).bind id).map metersToMiles ∧
      r.eta_min = ((ts.get? idx).bind id).map (fun sec => max 1 (jsRound (sec / 60))) ∧
      (∀ m, r.eta_min = some m → 1 ≤ m) ∧
      (r.drive_mi = none → rank r = r.dist_mi) ∧
      (∀ d, r.drive_mi = some d → rank r = d) := by
  have hms : matrixStep env start (base.map RStopBase.geo) = (some ds, some ts) := by
    unfold matrixStep
    rw [hm]
  have hb : base.get? idx = some (base.get ⟨idx, hidx⟩) := List.get?_eq_get hidx
  have hr : (resolvedOf env start base).get? idx =
      some (enrichOne (some ds) (some ts) idx (base.get ⟨idx, hidx⟩)) := by
    rw [resolvedOf_get?, hms, hb]
    rfl
  refine ⟨base.get ⟨idx, hidx⟩, enrichOne (some ds) (some ts) idx (base.get ⟨idx, hidx⟩),
    hb, hr, rfl, rfl, rfl, ?_, ?_, ?_⟩
  · intro m hm2
    simp only [enrichOne, etaOf] at hm2
    have hred : (((some ts).bind fun l => l.get? idx).bind id) = (ts.get? idx).bind id := rfl
    rw [hred] at hm2
    rcases hts : (ts.get? idx).bind id with _ | sec <;> rw [hts] at hm2
    · cases hm2
    · simp only [Option.map_some'] at hm2
      cases hm2
      exact le_max_left 1 _
  · intro h0
    simp only [rank, h0]
  · intro d hd
    simp only [rank, hd]

/-- Witness for the per-element enrichment theorem, at the stop whose
matrix entries are non-finite while the sibling stop keeps driving
values. -/
theorem matrix_per_element_witness :
    ∃ b r, baseAB.get? 1 = some b ∧ (resolvedOf envMatrixOk gStart baseAB).get? 1 = some r ∧
      r.dist_mi = b.dist_mi ∧
      r.drive_mi = ((([some 8047, none] : List (Option ℚ)).get? 1).bind id).map metersToMiles ∧
      r.eta_min = ((([some 90, none] : List (Option ℚ)).get? 1).bind id).map
        (fun sec => max 1 (jsRound (sec / 60))) ∧
      (∀ m, r.eta_min = some m → 1 ≤ m) ∧
      (r.drive_mi = none → rank r = r.dist_mi) ∧
      (∀ d, r.drive_mi = some d → rank r = d) :=
  matrix_per_element envMatrixOk gStart baseAB [some 8047, none] [some 90, none] 1
    (by decide) (by decide)

end PerElementEnrichment

end BirthdayScout
